import Mathlib

/-!
# stackoverflow-metrics: a shallow embedding of `main.go`

The program loads a JSON configuration, builds one request URL for the
Stack Exchange API, decodes the answer and hands one record per question to a
CSV writer.  The Go standard-library functions it calls are modelled here from
their documented behaviour (`net/url`, `time`, `strconv`, `encoding/json`);
what the outside world answers (files, the HTTP server, the JSON tokenizer,
the local time zone) is collected in `Env`.

Layout: definitions first (library models, data model, the three functions of
`main.go`, the calendar in the words of the specification, sample
environments), then the lemmas and the theorems of the claims C1 to C10.
-/

set_option autoImplicit false
set_option maxRecDepth 100000

namespace SOMetrics

/-! ## Go strings

A Go string is a byte sequence.  Strings that come out of `encoding/json`
are valid UTF-8 and are kept as Lean `String`s; the byte-oriented library
code (`net/url`, `time.Parse`) works on their UTF-8 bytes. -/

/-- A byte string; every element is below 256. -/
abbrev Bytes := List Nat

/-- UTF-8 encoding of one code point. -/
def utf8Char (c : Char) : Bytes :=
  let v := c.toNat
  if v ≤ 0x7f then [v]
  else if v ≤ 0x7ff then [0xc0 + v / 64, 0x80 + v % 64]
  else if v ≤ 0xffff then [0xe0 + v / 4096, 0x80 + v / 64 % 64, 0x80 + v % 64]
  else [0xf0 + v / 262144, 0x80 + v / 4096 % 64, 0x80 + v / 64 % 64, 0x80 + v % 64]

/-- UTF-8 bytes of a list of code points. -/
def utf8 : List Char → Bytes
  | [] => []
  | c :: cs => utf8Char c ++ utf8 cs

/-- The bytes of a Go string held as a Lean `String`. -/
def toBytes (s : String) : Bytes := utf8 s.data

/-- Go `int64(x)` for an integer `x`: reduction into `[-2^63, 2^63)`. -/
def wrapInt64 (x : Int) : Int := (x + 2 ^ 63) % 2 ^ 64 - 2 ^ 63

/-- Go `uint64(x)`: reduction into `[0, 2^64)`. -/
def wrapUint64 (x : Int) : Nat := (x % 2 ^ 64).toNat

/-! ## strconv and strings -/

/-- Model of `strconv.FormatInt(i, 10)` (and of `strconv.Itoa`): an optional minus sign and
the decimal digits. -/
def FormatInt (i : Int) : String :=
  if i < 0 then "-" ++ Nat.repr i.natAbs else Nat.repr i.natAbs

/-- Model of `strconv.FormatBool`. -/
def FormatBool (b : Bool) : String := if b then "true" else "false"

/-- Model of `strings.Join(elems, sep)`. -/
def Join : List String → String → String
  | [], _ => ""
  | [a], _ => a
  | a :: b :: rest, sep => a ++ sep ++ Join (b :: rest) sep

/-! ## time

The calendar code follows package `time`: seconds are counted from an
"absolute" epoch whose year is 1 modulo 400, so that leap days fall at the end
of the 4-, 100- and 400-year cycles. -/

def secondsPerDay : Nat := 86400
def daysPer400Years : Nat := 365 * 400 + 97
def daysPer100Years : Nat := 365 * 100 + 24
def daysPer4Years : Nat := 365 * 4 + 1
def absoluteZeroYear : Int := -292277022399
/-- Seconds from the absolute epoch to the Unix epoch (`unixToInternal + internalToAbsolute`). -/
def unixToAbsolute : Int := 9223372028715321600
/-- Seconds from year 1 to the Unix epoch (`unixToInternal`). -/
def unixToInternal : Int := 62135596800

/-- Model of `time.isLeap`. -/
def isLeap (year : Int) : Bool :=
  year % 4 == 0 && (year % 100 != 0 || year % 400 == 0)

/-- The table `time.daysBefore`: days in a non-leap year before month `m + 1` begins. -/
def daysBefore (m : Nat) : Nat :=
  match m with
  | 0 => 0
  | 1 => 31
  | 2 => 59
  | 3 => 90
  | 4 => 120
  | 5 => 151
  | 6 => 181
  | 7 => 212
  | 8 => 243
  | 9 => 273
  | 10 => 304
  | 11 => 334
  | _ => 365

/-- Model of `time.daysIn(month, year)` for a month number `1..12`. -/
def daysIn (m : Nat) (year : Int) : Nat :=
  if m == 2 && isLeap year then 29 else daysBefore m - daysBefore (m - 1)

/-- Model of `time.daysSinceEpoch`: days from the absolute epoch to 1 January of `year`;
the year offset is taken as a `uint64`. -/
def daysSinceEpoch (year : Int) : Nat :=
  let y := wrapUint64 (year - absoluteZeroYear)
  let n400 := y / 400
  let y1 := y - 400 * n400
  let n100 := y1 / 100
  let y2 := y1 - 100 * n100
  let n4 := y2 / 4
  let y3 := y2 - 4 * n4
  daysPer400Years * n400 + daysPer100Years * n100 + daysPer4Years * n4 + 365 * y3

/-- Model of `time.norm(hi, lo, base)`. -/
def norm (hi lo base : Int) : Int × Int :=
  let (hi1, lo1) :=
    if lo < 0 then
      let n := Int.tdiv (-lo - 1) base + 1
      (hi - n, lo + n * base)
    else (hi, lo)
  if lo1 ≥ base then
    let n := Int.tdiv lo1 base
    (hi1 + n, lo1 - n * base)
  else (hi1, lo1)

/-- Model of `time.Date(year, month, day, 0, 0, 0, 0, time.UTC).Unix()`: the month is
normalised, the day count and the second count are `uint64` values, and the
result is the `int64` distance to the Unix epoch. -/
def dateUnix (year : Int) (month day : Nat) : Int :=
  let (year1, m) := norm year ((month : Int) - 1) 12
  let month1 := m.toNat + 1
  let d0 := daysSinceEpoch year1 + daysBefore (month1 - 1)
  let d1 := if isLeap year1 && month1 ≥ 3 then d0 + 1 else d0
  let d := wrapUint64 ((d1 : Int) + ((day : Int) - 1))
  let abs : Nat := d * secondsPerDay % 2 ^ 64
  wrapInt64 (wrapInt64 (abs : Int) + (-unixToAbsolute))

/-- The Unix value of the zero `time.Time` (1 January of year 1, UTC). -/
def zeroTimeUnix : Int := -unixToInternal

def isDigitByte (b : Nat) : Bool := 48 ≤ b && b ≤ 57

/-- Model of `time.Parse("2006-01-02", value)` on the bytes of `value`: four digits for the
year (`stdLongYear`), a literal `-`, two digits for the month (`stdZeroMonth`,
range 1..12), a literal `-`, two digits for the day (`stdZeroDay`), no text
after them, and a day that exists in that month.  `none` is any parse error. -/
def parseDate (value : Bytes) : Option (Nat × Nat × Nat) :=
  match value with
  | [y1, y2, y3, y4, s1, m1, m2, s2, d1, d2] =>
    if isDigitByte y1 && isDigitByte y2 && isDigitByte y3 && isDigitByte y4
        && s1 == 45 && isDigitByte m1 && isDigitByte m2
        && s2 == 45 && isDigitByte d1 && isDigitByte d2 then
      let year := (y1 - 48) * 1000 + (y2 - 48) * 100 + (y3 - 48) * 10 + (y4 - 48)
      let month := (m1 - 48) * 10 + (m2 - 48)
      let day := (d1 - 48) * 10 + (d2 - 48)
      if month = 0 ∨ 12 < month then none
      else if day < 1 ∨ day > daysIn month year then none
      else some (year, month, day)
    else none
  | _ => none

/-- The value `main` computes with `t, _ := time.Parse("2006-01-02", s); t.Unix()`: on a parse
error `t` is the zero `Time`. -/
def parseUnix (s : String) : Int :=
  match parseDate (toBytes s) with
  | some (y, m, d) => dateUnix y m d
  | none => zeroTimeUnix

/-- Model of `time.absDate(abs, true)`: year, month and day of an absolute second count. -/
def absDate (abs : Nat) : Int × Nat × Nat :=
  let d := abs / secondsPerDay
  let n400 := d / daysPer400Years
  let d1 := d - daysPer400Years * n400
  let n100a := d1 / daysPer100Years
  let n100 := n100a - n100a / 4
  let d2 := d1 - daysPer100Years * n100
  let n4 := d2 / daysPer4Years
  let d3 := d2 - daysPer4Years * n4
  let n1a := d3 / 365
  let n1 := n1a - n1a / 4
  let yday := d3 - 365 * n1
  let y := 400 * n400 + 100 * n100 + 4 * n4 + n1
  let year := wrapInt64 y + absoluteZeroYear
  if isLeap year && yday == 31 + 29 - 1 then (year, 2, 29)
  else
    let day := if isLeap year && yday > 31 + 29 - 1 then yday - 1 else yday
    let m0 := day / 31
    let finish := daysBefore (m0 + 1)
    if day ≥ finish then (year, m0 + 2, day - finish + 1)
    else (year, m0 + 1, day - daysBefore m0 + 1)

/-- Zero padding of the decimal digits of `u` to `width` characters. -/
def padDigits (u width : Nat) : String :=
  String.mk (List.replicate (width - (Nat.repr u).length) '0') ++ Nat.repr u

/-- Model of `time.appendInt`: a minus sign for a negative value, then the zero-padded digits. -/
def appendInt (x : Int) (width : Nat) : String :=
  if x < 0 then "-" ++ padDigits x.natAbs width else padDigits x.natAbs width

/-- Model of `time.Unix(sec, 0).Format(time.RFC3339)`, layout `2006-01-02T15:04:05Z07:00`, in the
process's local time zone: `zone sec` is the offset in seconds east of UTC
that the local zone has at the instant `sec`. -/
def formatRFC3339 (zone : Int → Int) (sec : Int) : String :=
  let offset := zone sec
  let abs := wrapUint64 (wrapInt64 (sec + offset) + unixToAbsolute)
  let (year, month, day) := absDate abs
  let clock := abs % secondsPerDay
  let hour := clock / 3600
  let minute := clock % 3600 / 60
  let second := clock % 60
  let zoneText :=
    if offset = 0 then "Z"
    else
      let zm := Int.tdiv offset 60
      let sign := if zm < 0 then "-" else "+"
      let za := zm.natAbs
      sign ++ padDigits (za / 60) 2 ++ ":" ++ padDigits (za % 60) 2
  appendInt year 4 ++ "-" ++ padDigits month 2 ++ "-" ++ padDigits day 2 ++ "T"
    ++ padDigits hour 2 ++ ":" ++ padDigits minute 2 ++ ":" ++ padDigits second 2 ++ zoneText

/-! ## net/url

`GetQuestions` parses one URL, reads its query, sets up to three parameters,
encodes them and prints the URL again.  The model follows the current
standard library (control bytes rejected by `Parse`, `;` not a separator in
`ParseQuery`, `RawFragment` kept); the theorems below are about URLs on which
earlier releases agree.  Byte values used below:
`#` 35, `%` 37, `&` 38, `+` 43, `/` 47, `;` 59, `=` 61, `?` 63, space 32. -/

/-- The escaping contexts of `net/url` that this program reaches: `encodePath`,
`encodeQueryComponent` and `encodeFragment`. -/
inductive EncodeMode where
  | path
  | queryComponent
  | fragment
  deriving DecidableEq, Repr

def isAlnumByte (c : Nat) : Bool :=
  (97 ≤ c && c ≤ 122) || (65 ≤ c && c ≤ 90) || (48 ≤ c && c ≤ 57)

/-- Model of `url.shouldEscape(c, mode)`.  Unreserved marks `- _ . ~` are never escaped; of the
reserved bytes `$ & + , / : ; = ? @` a path escapes only `?`, a query
component escapes all, a fragment none; a fragment also keeps `! ( ) *`. -/
def shouldEscape (c : Nat) (mode : EncodeMode) : Bool :=
  if isAlnumByte c then false
  else if c = 45 ∨ c = 95 ∨ c = 46 ∨ c = 126 then false
  else if c = 36 ∨ c = 38 ∨ c = 43 ∨ c = 44 ∨ c = 47 ∨ c = 58 ∨ c = 59 ∨ c = 61 ∨ c = 63
      ∨ c = 64 then
    match mode with
    | .path => c = 63
    | .queryComponent => true
    | .fragment => false
  else if mode = .fragment ∧ (c = 33 ∨ c = 40 ∨ c = 41 ∨ c = 42) then false
  else true

/-- Model of `url.ishex`. -/
def ishex (c : Nat) : Bool :=
  (48 ≤ c && c ≤ 57) || (97 ≤ c && c ≤ 102) || (65 ≤ c && c ≤ 70)

/-- Model of `url.unhex`. -/
def unhex (c : Nat) : Nat :=
  if 48 ≤ c ∧ c ≤ 57 then c - 48
  else if 97 ≤ c ∧ c ≤ 102 then c - 97 + 10
  else if 65 ≤ c ∧ c ≤ 70 then c - 65 + 10
  else 0

/-- The hexadecimal digit `"0123456789ABCDEF"[d]`. -/
def upperhex (d : Nat) : Nat := if d < 10 then 48 + d else 55 + d

/-- Model of `url.unescape(s, mode)` for the three modes above: `%XX` is decoded, a `%` not
followed by two hexadecimal digits is an error (`none`), and `+` is a space
in a query component. -/
def unescape (mode : EncodeMode) : Bytes → Option Bytes
  | [] => some []
  | c :: rest =>
    if c = 37 then
      match rest with
      | a :: b :: rest2 =>
        if ishex a && ishex b then
          (unescape mode rest2).map (fun r => (unhex a * 16 + unhex b) :: r)
        else none
      | _ => none
    else if c = 43 ∧ mode = .queryComponent then
      (unescape mode rest).map (fun r => 32 :: r)
    else (unescape mode rest).map (fun r => c :: r)

/-- One byte of `url.escape`. -/
def escapeByte (mode : EncodeMode) (c : Nat) : Bytes :=
  if c = 32 ∧ mode = .queryComponent then [43]
  else if shouldEscape c mode then [37, upperhex (c / 16), upperhex (c % 16)]
  else [c]

/-- Model of `url.escape(s, mode)`. -/
def escape (mode : EncodeMode) : Bytes → Bytes
  | [] => []
  | c :: rest => escapeByte mode c ++ escape mode rest

/-- Model of `url.validEncoded(s, mode)`. -/
def validEncoded (mode : EncodeMode) (s : Bytes) : Bool :=
  s.all fun c =>
    if c = 33 ∨ c = 36 ∨ c = 38 ∨ c = 39 ∨ c = 40 ∨ c = 41 ∨ c = 42 ∨ c = 43 ∨ c = 44
        ∨ c = 59 ∨ c = 61 ∨ c = 58 ∨ c = 64 then true
    else if c = 91 ∨ c = 93 then true
    else if c = 37 then true
    else !shouldEscape c mode

/-- Model of `strings.Cut(s, sep)` for a one-byte separator: the text before the first `sep`,
the text after it, and whether `sep` occurs. -/
def cut (sep : Nat) : Bytes → Bytes × Bytes × Bool
  | [] => ([], [], false)
  | c :: rest =>
    if c = sep then ([], rest, true)
    else
      let r := cut sep rest
      (c :: r.1, r.2.1, r.2.2)

/-- Model of `url.stringContainsCTLByte`. -/
def stringContainsCTLByte (s : Bytes) : Bool := s.any fun b => b < 32 || b == 127

/-- The fields of `url.URL` that the request depends on. -/
structure URL where
  Scheme : Bytes
  Host : Bytes
  Path : Bytes
  RawPath : Bytes
  ForceQuery : Bool
  RawQuery : Bytes
  Fragment : Bytes
  RawFragment : Bytes
  deriving DecidableEq, Repr

/-- The constant text that `GetQuestions` puts before the joined ids. -/
def endpointBase : String := "https://api.stackexchange.com/2.2/questions/"

/-- Model of `url.Parse(endpointBase + tail)`; `none` is a parse error (a nil `*URL`).

The constant part holds the scheme `https`, the authority
`api.stackexchange.com` and the first path segments, and no `#`, `?`, `%` or
control byte, so `getScheme` and `parseAuthority` succeed with these values
for every `tail` and the remaining steps of `Parse` act on the tail:
* `Parse` cuts the text at the first `#`; what follows is the fragment;
* `parse` rejects a control byte before the `#`;
* a single `?` at the very end sets `ForceQuery`, otherwise the text after the
  first `?` is `RawQuery`;
* `setPath` unescapes the path and keeps the original text in `RawPath` when
  it is not the default escaping of the path;
* `setFragment` does the same for a non-empty fragment. -/
def parseEndpoint (tail : Bytes) : Option URL :=
  let (u, frag, _) := cut 35 tail
  if stringContainsCTLByte u then none
  else
    let (rest, forceQuery, rawQuery) :=
      if u.getLast? = some 63 ∧ u.count 63 = 1 then (u.dropLast, true, ([] : Bytes))
      else
        let r := cut 63 u
        (r.1, false, r.2.1)
    let p := toBytes "/2.2/questions/" ++ rest
    match unescape .path p with
    | none => none
    | some path =>
      let url : URL :=
        { Scheme := toBytes "https"
          Host := toBytes "api.stackexchange.com"
          Path := path
          RawPath := if escape .path path = p then [] else p
          ForceQuery := forceQuery
          RawQuery := rawQuery
          Fragment := []
          RawFragment := [] }
      if frag = [] then some url
      else
        match unescape .fragment frag with
        | none => none
        | some f =>
          some { url with
            Fragment := f
            RawFragment := if escape .fragment f = frag then [] else frag }

/-- Bytewise lexicographic order, the order of Go strings. -/
def bytesLt : Bytes → Bytes → Bool
  | [], [] => false
  | [], _ :: _ => true
  | _ :: _, [] => false
  | a :: as, b :: bs => a < b || (a == b && bytesLt as bs)

/-- Model of `url.Values`, a map from a key to its list of values, kept here as an association
list in ascending key order (the order in which `Encode` visits the keys). -/
abbrev Values := List (Bytes × List Bytes)

/-- The map update `m[key] = append(m[key], value)`. -/
def Values.add : Values → Bytes → Bytes → Values
  | [], k, v => [(k, [v])]
  | (k1, vs) :: rest, k, v =>
    if k = k1 then (k1, vs ++ [v]) :: rest
    else if bytesLt k k1 then (k, [v]) :: (k1, vs) :: rest
    else (k1, vs) :: Values.add rest k v

/-- Model of `Values.Set(key, value)`: `m[key] = []string{value}`. -/
def Values.Set : Values → Bytes → Bytes → Values
  | [], k, v => [(k, [v])]
  | (k1, vs) :: rest, k, v =>
    if k = k1 then (k1, [v]) :: rest
    else if bytesLt k k1 then (k, [v]) :: (k1, vs) :: rest
    else (k1, vs) :: Values.Set rest k v

/-- Model of `strings.Split(s, sep)` for a one-byte separator. -/
def splitBytes (sep : Nat) : Bytes → List Bytes
  | [] => [[]]
  | c :: rest =>
    if c = sep then [] :: splitBytes sep rest
    else
      match splitBytes sep rest with
      | [] => [[c]]
      | s :: ss => (c :: s) :: ss

/-- One `key=value` setting of `url.parseQuery`: a setting that is empty, contains `;` or does
not unescape is skipped. -/
def parseQueryPair (m : Values) (kv : Bytes) : Values :=
  if kv.contains 59 then m
  else if kv = [] then m
  else
    let r := cut 61 kv
    match unescape .queryComponent r.1 with
    | none => m
    | some key =>
      match unescape .queryComponent r.2.1 with
      | none => m
      | some value => m.add key value

/-- Model of `(*URL).Query()`: `url.ParseQuery(u.RawQuery)` with its error dropped; the settings
are separated by `&`. -/
def URL.Query (u : URL) : Values :=
  (splitBytes 38 u.RawQuery).foldl parseQueryPair []

/-- Model of `Values.Encode()`: `key=value` settings in ascending key order, joined by `&`, keys
and values query-escaped. -/
def Values.Encode (m : Values) : Bytes :=
  let settings := m.flatMap fun kv =>
    kv.2.map fun v => escape .queryComponent kv.1 ++ [61] ++ escape .queryComponent v
  List.intercalate [38] settings

/-- Model of `(*URL).EscapedPath()`. -/
def URL.EscapedPath (u : URL) : Bytes :=
  if u.RawPath ≠ [] ∧ validEncoded .path u.RawPath = true
      ∧ unescape .path u.RawPath = some u.Path then u.RawPath
  else if u.Path = [42] then [42]
  else escape .path u.Path

/-- Model of `(*URL).EscapedFragment()`. -/
def URL.EscapedFragment (u : URL) : Bytes :=
  if u.RawFragment ≠ [] ∧ validEncoded .fragment u.RawFragment = true
      ∧ unescape .fragment u.RawFragment = some u.Fragment then u.RawFragment
  else escape .fragment u.Fragment

/-- Model of `(*URL).String()` for a URL with a scheme and a host and without user
information: `scheme://host` (the host `api.stackexchange.com` needs no
escaping), the escaped path (after a `/` when it does not begin with one),
`?` and the query when `ForceQuery` is set or the query is not empty, `#` and
the escaped fragment when the fragment is not empty. -/
def URL.String (u : URL) : Bytes :=
  let path := u.EscapedPath
  let slash : Bytes := if path ≠ [] ∧ path.head? ≠ some 47 then [47] else []
  let query : Bytes := if u.ForceQuery = true ∨ u.RawQuery ≠ [] then 63 :: u.RawQuery else []
  let fragment : Bytes := if u.Fragment ≠ [] then 35 :: u.EscapedFragment else []
  u.Scheme ++ toBytes "://" ++ u.Host ++ slash ++ path ++ query ++ fragment

/-! ## encoding/json

The tokenizer is part of the environment (`Env.jsonParse`); what is modelled
here is how `json.Unmarshal` stores a parsed value into a struct: "Unmarshal
matches incoming object keys to the keys used by Marshal (either the struct
field name or its tag), preferring an exact match but also accepting a
case-insensitive match", a value of the wrong kind is reported as an error
and skipped while decoding goes on, and `null` leaves a scalar field as it is. -/

/-- A parsed JSON value.  A number keeps its literal text; object members are in source order
with unquoted keys. -/
inductive JValue where
  | null
  | bool (b : Bool)
  | number (literal : String)
  | string (s : String)
  | array (elems : List JValue)
  | object (members : List (String × JValue))

/-- A non-empty run of decimal digits, read as a number. -/
def parseDigits (cs : List Char) : Option Nat :=
  if cs ≠ [] ∧ cs.all Char.isDigit then
    some (cs.foldl (fun acc c => 10 * acc + (c.toNat - 48)) 0)
  else none

/-- Model of `strconv.ParseInt(s, 10, 64)`: an optional sign, decimal digits, and a value that
fits an `int64`; `none` is a syntax or range error. -/
def ParseInt (s : String) : Option Int :=
  match s.data with
  | [] => none
  | c :: rest =>
    let neg := c = '-'
    let digits := if c = '+' ∨ c = '-' then rest else c :: rest
    match parseDigits digits with
    | none => none
    | some un =>
      if neg then (if un > 2 ^ 63 then none else some (-(un : Int)))
      else if un ≥ 2 ^ 63 then none
      else some (un : Int)

/-- Storing a JSON value into a Go `string` field that holds `cur`. -/
def decodeString (cur : String) : JValue → String
  | .string s => s
  | _ => cur

/-- Storing a JSON value into a Go `bool` field that holds `cur`. -/
def decodeBool (cur : Bool) : JValue → Bool
  | .bool b => b
  | _ => cur

/-- Storing a JSON value into a Go `int` or `int64` field that holds `cur` (64-bit `int`): a
number whose literal is not an integer in range is skipped. -/
def decodeInt (cur : Int) : JValue → Int
  | .number literal =>
    match ParseInt literal with
    | some n => n
    | none => cur
  | _ => cur

/-- The representative of a rune under Unicode simple case folding, for the runes whose fold
class holds an ASCII letter: the letters themselves, the Kelvin sign U+212A
(with `k`) and the long s U+017F (with `s`).  Other runes are left alone,
which is exact when one side of the comparison is an ASCII name. -/
def foldRune (c : Char) : Char :=
  if 'a' ≤ c ∧ c ≤ 'z' then Char.ofNat (c.toNat - 32)
  else if c = Char.ofNat 0x212A then 'K'
  else if c = Char.ofNat 0x17F then 'S'
  else c

/-- Case-insensitive match of an object key with an ASCII field name. -/
def equalFold (name key : String) : Bool :=
  name.data.map foldRune == key.data.map foldRune

/-- The struct field that an object key selects: an exact match of the tag name if there is
one, otherwise the first field whose name matches case-insensitively. -/
def findField {F : Type} (fields : List (String × F)) (key : String) : Option F :=
  match fields.find? (fun f => f.1 == key) with
  | some f => some f.2
  | none => (fields.find? (fun f => equalFold f.1 key)).map (fun f => f.2)

/-! ## Data model of `main.go` -/

structure InputData where
  Output : String
  From : String
  To : String
  QuestionIds : List String
  deriving DecidableEq, Repr

structure Owner where
  Reputation : Int
  UserId : Int
  UserType : String
  DisplayName : String
  Link : String
  deriving DecidableEq, Repr

/-- The element type of `QuestionsResponse.Items` (an anonymous struct in the source). -/
structure Item where
  Tags : List String
  Owner : Owner
  IsAnswered : Bool
  ViewCount : Int
  AnswerCount : Int
  Score : Int
  LastActivityDate : Int
  CreationDate : Int
  LastEditDate : Int
  QuestionId : Int
  Link : String
  Title : String
  deriving DecidableEq, Repr

structure QuestionsResponse where
  Items : List Item
  HasMore : Bool
  QuotaMax : Int
  QuotaRemaining : Int
  deriving DecidableEq, Repr

structure ErrorResponse where
  ErrorId : Int
  ErrorMessage : String
  ErrorName : String
  deriving DecidableEq, Repr

/-- The zero value `InputData{}`. -/
def InputData.zero : InputData := { Output := "", From := "", To := "", QuestionIds := [] }

/-- The zero value `QuestionsResponse{}`. -/
def QuestionsResponse.zero : QuestionsResponse :=
  { Items := [], HasMore := false, QuotaMax := 0, QuotaRemaining := 0 }

/-- The zero value `ErrorResponse{}`. -/
def ErrorResponse.zero : ErrorResponse := { ErrorId := 0, ErrorMessage := "", ErrorName := "" }

/-- A Go `error` value: one handed over by a library call, or one made by `errors.New`. -/
inductive GoError where
  | lib (text : String)
  | new (text : String)
  deriving DecidableEq, Repr

/-- The method `Error()`. -/
def GoError.Error : GoError → String
  | .lib text => text
  | .new text => text

/-- What `http.Get` gives back: an error, or a response with a status code whose body is read
by `ioutil.ReadAll`, itself an error or the bytes. -/
inductive HttpResult where
  | failure (err : GoError)
  | response (status : Nat) (body : Except GoError Bytes)

/-- The outside world of one run. -/
structure Env where
  /-- The result of `os.Open` on a path and, for a file that opens, the value that
  `json.NewDecoder(file).Decode(&data)` leaves in a zero `InputData`. -/
  osOpen : String → Except GoError InputData
  /-- The answer to `http.Get(url)` followed by `ioutil.ReadAll(response.Body)`. -/
  httpGet : Bytes → HttpResult
  /-- The JSON tokenizer: `none` for bytes that are not one valid JSON value. -/
  jsonParse : Bytes → Option JValue
  /-- How `json.Unmarshal` stores a JSON value into the slice field `Items` that holds the
  given items. -/
  unmarshalItems : List Item → JValue → List Item
  /-- The offset of the local time zone, in seconds east of UTC, at a Unix time. -/
  zone : Int → Int

/-- The fields of `ErrorResponse` with their JSON names. -/
inductive ErrorField where
  | errorId
  | errorMessage
  | errorName
  deriving DecidableEq, Repr

def errorFields : List (String × ErrorField) :=
  [("error_id", .errorId), ("error_message", .errorMessage), ("error_name", .errorName)]

/-- One object member stored into an `ErrorResponse`. -/
def ErrorResponse.setMember (r : ErrorResponse) (kv : String × JValue) : ErrorResponse :=
  match findField errorFields kv.1 with
  | some .errorId => { r with ErrorId := decodeInt r.ErrorId kv.2 }
  | some .errorMessage => { r with ErrorMessage := decodeString r.ErrorMessage kv.2 }
  | some .errorName => { r with ErrorName := decodeString r.ErrorName kv.2 }
  | none => r

/-- Model of `json.Unmarshal(data, &errorResponse)` with its error dropped, `parsed` being the
tokenizer's reading of `data`: invalid JSON and values that are not objects
leave the struct as it is. -/
def unmarshalErrorResponse (parsed : Option JValue) (r : ErrorResponse) : ErrorResponse :=
  match parsed with
  | some (.object members) => members.foldl ErrorResponse.setMember r
  | _ => r

/-- The top-level fields of `QuestionsResponse` with their JSON names. -/
inductive QuestionsField where
  | items
  | hasMore
  | quotaMax
  | quotaRemaining
  deriving DecidableEq, Repr

def questionsFields : List (String × QuestionsField) :=
  [("items", .items), ("has_more", .hasMore), ("quota_max", .quotaMax),
    ("quota_remaining", .quotaRemaining)]

/-- One object member stored into a `QuestionsResponse`. -/
def QuestionsResponse.setMember (env : Env) (r : QuestionsResponse) (kv : String × JValue) :
    QuestionsResponse :=
  match findField questionsFields kv.1 with
  | some .items => { r with Items := env.unmarshalItems r.Items kv.2 }
  | some .hasMore => { r with HasMore := decodeBool r.HasMore kv.2 }
  | some .quotaMax => { r with QuotaMax := decodeInt r.QuotaMax kv.2 }
  | some .quotaRemaining => { r with QuotaRemaining := decodeInt r.QuotaRemaining kv.2 }
  | none => r

/-- Model of `json.Unmarshal(data, &questions)` with its error dropped. -/
def unmarshalQuestions (env : Env) (parsed : Option JValue) (r : QuestionsResponse) :
    QuestionsResponse :=
  match parsed with
  | some (.object members) => members.foldl (QuestionsResponse.setMember env) r
  | _ => r

/-! ## The program -/

/-- What a run does to the outside, in order.  `callGetQuestions` marks the call in `main`
with the arguments passed. -/
inductive Event where
  | println (s : String)
  | osOpen (file : String)
  | osCreate (name : String)
  | callGetQuestions (ids : List String) (from_ to_ : Int)
  | httpGet (url : Bytes)
  | csvWrite (record : List String)
  | csvFlush
  deriving DecidableEq, Repr

/-- The value of a panic that ends the process. -/
inductive PanicValue where
  | nilDereference
  | error (err : GoError)
  deriving DecidableEq, Repr

/-- The function `LoadConfiguration(file)`: its events and the returned `InputData`.  After a failed
`os.Open` the error is printed and the function goes on: `Decode` reads from
the nil file, fails (its error is dropped) and leaves `data` zero; the
deferred `Close` on the nil file returns an error and does not panic. -/
def LoadConfiguration (env : Env) (file : String) : List Event × InputData :=
  match env.osOpen file with
  | .error err => ([.osOpen file, .println err.Error], InputData.zero)
  | .ok data => ([.osOpen file], data)

/-- Lines 72-78 of `GetQuestions`: the parameters set on the query of the parsed URL. -/
def setQueryParams (queryParams : Values) (from_ to_ : Int) : Values :=
  let q1 := queryParams.Set (toBytes "site") (toBytes "stackoverflow")
  let q2 := if from_ > 0 then q1.Set (toBytes "fromdate") (toBytes (FormatInt from_)) else q1
  if to_ > 0 then q2.Set (toBytes "todate") (toBytes (FormatInt to_)) else q2

/-- Lines 70-79 of `GetQuestions`: `endpoint` after its query is replaced, or `none` when
`url.Parse` fails; its error is dropped, `endpoint` is nil and
`endpoint.Query()` panics.  The URL text is `endpointBase` followed by the ids
joined with `;`, of which `parseEndpoint` takes the second part. -/
def requestEndpoint (ids : List String) (from_ to_ : Int) : Option URL :=
  match parseEndpoint (toBytes (Join ids ";")) with
  | none => none
  | some endpoint =>
    let queryParams := setQueryParams endpoint.Query from_ to_
    some { endpoint with RawQuery := queryParams.Encode }

/-- Line 80 of `GetQuestions`: the text `endpoint.String()` passed to `http.Get`. -/
def requestURL (ids : List String) (from_ to_ : Int) : Option Bytes :=
  (requestEndpoint ids from_ to_).map URL.String

/-- The query as the specification describes it: `site=stackoverflow`, with
`fromdate=<decimal from>` when `from > 0` and `todate=<decimal to>` when
`to > 0`, and nothing else (settings in the key order of `Encode`). -/
def specQuery (from_ to_ : Int) : Bytes :=
  (if from_ > 0 then toBytes "fromdate=" ++ toBytes (FormatInt from_) ++ [38] else [])
    ++ toBytes "site=stackoverflow"
    ++ (if to_ > 0 then [38] ++ toBytes "todate=" ++ toBytes (FormatInt to_) else [])

/-- The parameters as the specification describes them. -/
def specParams (from_ to_ : Int) : Values :=
  (if from_ > 0 then [(toBytes "fromdate", [toBytes (FormatInt from_)])] else [])
    ++ [(toBytes "site", [toBytes "stackoverflow"])]
    ++ (if to_ > 0 then [(toBytes "todate", [toBytes (FormatInt to_)])] else [])

/-- Lines 88-95 of `GetQuestions`: what is returned for a body that was read. -/
def decodeBody (env : Env) (data : Bytes) : QuestionsResponse × Option GoError :=
  let errorResponse := unmarshalErrorResponse (env.jsonParse data) ErrorResponse.zero
  if errorResponse ≠ ErrorResponse.zero then
    (QuestionsResponse.zero,
      some (.new (errorResponse.ErrorName ++ ": " ++ errorResponse.ErrorMessage)))
  else (unmarshalQuestions env (env.jsonParse data) QuestionsResponse.zero, none)

/-- The outcome of a call of `GetQuestions`: its events and what it returns, `none` when it
panics on the nil `endpoint`. -/
structure GetOutcome where
  events : List Event
  result : Option (QuestionsResponse × Option GoError)

/-- The function `GetQuestions(ids, from, to)`; `from_` and `to_` stand for `from` and `to`. -/
def GetQuestions (env : Env) (ids : List String) (from_ to_ : Int) : GetOutcome :=
  match requestURL ids from_ to_ with
  | none => { events := [], result := none }
  | some url =>
    match env.httpGet url with
    | .failure err => { events := [.httpGet url], result := some (QuestionsResponse.zero, some err) }
    | .response _ (.error err) =>
      { events := [.httpGet url], result := some (QuestionsResponse.zero, some err) }
    | .response _ (.ok data) => { events := [.httpGet url], result := some (decodeBody env data) }

/-- The header record written by `main`. -/
def csvHeader : List String :=
  ["Title", "Link", "Tags", "Answered", "Answer Count", "View Count", "Creation Date"]

/-- The record `main` builds for one item (line 114). -/
def csvRecord (env : Env) (question : Item) : List String :=
  [question.Title, question.Link, Join question.Tags "/", FormatBool question.IsAnswered,
    FormatInt question.AnswerCount, FormatInt question.ViewCount,
    formatRFC3339 env.zone question.CreationDate]

/-- The end state of a run: the events in order and the panic value, if the run panicked. -/
structure Run where
  trace : List Event
  panic : Option PanicValue

/-- The function `main()`, given the value of the `-input` flag. -/
def main (env : Env) (input : String) : Run :=
  let loaded := LoadConfiguration env input
  let inputData := loaded.2
  let fromDate := parseUnix inputData.From
  let toDate := parseUnix inputData.To
  let got := GetQuestions env inputData.QuestionIds fromDate toDate
  let start : List Event :=
    [.println "Starting the application..."] ++ loaded.1 ++ [.osCreate inputData.Output]
      ++ [.callGetQuestions inputData.QuestionIds fromDate toDate] ++ got.events
  match got.result with
  | none => { trace := start, panic := some .nilDereference }
  | some (_, some err) => { trace := start, panic := some (.error err) }
  | some (questions, none) =>
    { trace := start
        ++ [.println ("Questions found: " ++ FormatInt (questions.Items.length : Int))]
        ++ [.csvWrite csvHeader]
        ++ questions.Items.map (fun question => .csvWrite (csvRecord env question))
        ++ [.csvFlush]
      panic := none }

/-- The records passed to the CSV writer during a run, in order. -/
def csvRecords : List Event → List (List String)
  | [] => []
  | .csvWrite record :: rest => record :: csvRecords rest
  | _ :: rest => csvRecords rest

/-- The URLs passed to `http.Get` during a run, in order. -/
def httpCalls : List Event → List Bytes
  | [] => []
  | .httpGet url :: rest => url :: httpCalls rest
  | _ :: rest => httpCalls rest

/-- The `main` call of `GetQuestions` for a loaded configuration. -/
def callOf (env : Env) (inputData : InputData) : GetOutcome :=
  GetQuestions env inputData.QuestionIds (parseUnix inputData.From) (parseUnix inputData.To)

/-- The number of calls of `GetQuestions` recorded in a trace. -/
def getQuestionsCalls : List Event → Nat
  | [] => 0
  | .callGetQuestions _ _ _ :: rest => getQuestionsCalls rest + 1
  | _ :: rest => getQuestionsCalls rest

/-- Two items agree on the fields that `main` writes. -/
def Item.sameSelected (a b : Item) : Prop :=
  a.Title = b.Title ∧ a.Link = b.Link ∧ a.Tags = b.Tags ∧ a.IsAnswered = b.IsAnswered
    ∧ a.AnswerCount = b.AnswerCount ∧ a.ViewCount = b.ViewCount
    ∧ a.CreationDate = b.CreationDate

/-! ## The calendar as the specification words it

A second, independent reading of "a valid YYYY-MM-DD date" and of "the number
of seconds from the Unix epoch to midnight UTC of that date", to compare the
model of `time.Parse` and `time.Date` with. -/

def sampleItem : Item :=
  { Tags := ["go", "mongodb"]
    Owner := { Reputation := 1, UserId := 2, UserType := "registered", DisplayName := "bob",
               Link := "https://stackoverflow.com/users/2" }
    IsAnswered := true
    ViewCount := 10
    AnswerCount := 2
    Score := 3
    LastActivityDate := 1582934500
    CreationDate := 1582934400
    LastEditDate := 1582934450
    QuestionId := 42
    Link := "https://stackoverflow.com/q/42"
    Title := "How?" }

/-- The same question with every field that is not written changed. -/
def sampleItemOther : Item :=
  { sampleItem with
    Owner := { Reputation := 9, UserId := 8, UserType := "", DisplayName := "eve", Link := "" }
    Score := -1
    LastActivityDate := 7
    LastEditDate := 0
    QuestionId := 43 }

def sampleConfig : InputData :=
  { Output := "out.csv", From := "2020-01-01", To := "", QuestionIds := ["42", "43"] }

/-- A world in which `input.json` holds `sampleConfig` and the server answers with one item. -/
def sampleEnv : Env :=
  { osOpen := fun file =>
      if file = "input.json" then .ok sampleConfig else .error (.lib "open: no such file")
    httpGet := fun _ => .response 200 (.ok [])
    jsonParse := fun _ =>
      some (.object [("items", .array [.object []]), ("has_more", .bool true)])
    unmarshalItems := fun _ _ => [sampleItem]
    zone := fun _ => 0 }

/-- The world of `sampleEnv` with another decoding of the items and `has_more` false. -/
def sampleEnvOther : Env :=
  { sampleEnv with
    jsonParse := fun _ =>
      some (.object [("items", .array [.object []]), ("has_more", .bool false)])
    unmarshalItems := fun _ _ => [sampleItemOther] }

/-- A world in which `http.Get` fails. -/
def offlineEnv : Env :=
  { sampleEnv with httpGet := fun _ => .failure (.lib "dial tcp: no route to host") }

/-- A world in which the server answers with an API error object. -/
def apiErrorEnv : Env :=
  { sampleEnv with
    httpGet := fun _ => .response 400 (.ok [])
    jsonParse := fun _ =>
      some (.object [("error_id", .number "400"), ("error_message", .string "ids"),
        ("error_name", .string "bad_parameter"), ("items", .array [.object []])]) }

/-- A world in which the server's object spells an error key in upper case. -/
def upperCaseKeyEnv : Env :=
  { sampleEnv with
    httpGet := fun _ => .response 400 (.ok [])
    jsonParse := fun _ => some (.object [("ERROR_ID", .number "400")]) }

/-- A world in which the body is not JSON. -/
def notJsonEnv : Env :=
  { sampleEnv with
    httpGet := fun _ => .response 503 (.ok [60, 104, 116, 109, 108, 62])
    jsonParse := fun _ => none }

/-- A world in which the configured id is `%zz`. -/
def badEscapeEnv : Env :=
  { sampleEnv with osOpen := fun _ => .ok { sampleConfig with QuestionIds := ["%zz"] } }

/-- A world in which the configured id carries a query of its own and no date is given. -/
def queryInIdEnv : Env :=
  { sampleEnv with
    osOpen := fun _ =>
      .ok { Output := "out.csv", From := "", To := "", QuestionIds := ["1?fromdate=5"] } }


/-! ## Lemmas on traces -/

theorem csvRecords_append (a b : List Event) :
    csvRecords (a ++ b) = csvRecords a ++ csvRecords b := by
  induction a with
  | nil => rfl
  | cons e rest ih => cases e <;> simp [csvRecords, ih]

theorem httpCalls_append (a b : List Event) :
    httpCalls (a ++ b) = httpCalls a ++ httpCalls b := by
  induction a with
  | nil => rfl
  | cons e rest ih => cases e <;> simp [httpCalls, ih]

theorem getQuestionsCalls_append (a b : List Event) :
    getQuestionsCalls (a ++ b) = getQuestionsCalls a + getQuestionsCalls b := by
  induction a with
  | nil => simp [getQuestionsCalls]
  | cons e rest ih =>
    cases e <;> simp [getQuestionsCalls, ih]
    omega

theorem csvRecords_map_csvWrite {α : Type} (f : α → List String) (l : List α) :
    csvRecords (l.map fun x => Event.csvWrite (f x)) = l.map f := by
  induction l with
  | nil => rfl
  | cons x rest ih => simp [csvRecords, ih]

theorem httpCalls_map_csvWrite {α : Type} (f : α → List String) (l : List α) :
    httpCalls (l.map fun x => Event.csvWrite (f x)) = [] := by
  induction l with
  | nil => rfl
  | cons x rest ih => simp [httpCalls, ih]

theorem getQuestionsCalls_map_csvWrite {α : Type} (f : α → List String) (l : List α) :
    getQuestionsCalls (l.map fun x => Event.csvWrite (f x)) = 0 := by
  induction l with
  | nil => rfl
  | cons x rest ih => simp [getQuestionsCalls, ih]

/-- The events of `LoadConfiguration` are an `os.Open` and at most one printed line. -/
theorem LoadConfiguration_events (env : Env) (file : String) :
    csvRecords (LoadConfiguration env file).1 = []
      ∧ httpCalls (LoadConfiguration env file).1 = []
      ∧ getQuestionsCalls (LoadConfiguration env file).1 = 0 := by
  unfold LoadConfiguration
  cases env.osOpen file <;> simp [csvRecords, httpCalls, getQuestionsCalls]

/-- The events of `GetQuestions` are the `http.Get` of the request URL, if the URL parses. -/
theorem GetQuestions_events (env : Env) (ids : List String) (from_ to_ : Int) :
    (GetQuestions env ids from_ to_).events
      = match requestURL ids from_ to_ with
        | none => []
        | some url => [Event.httpGet url] := by
  unfold GetQuestions
  cases requestURL ids from_ to_ with
  | none => rfl
  | some url =>
    simp only
    cases env.httpGet url with
    | failure err => rfl
    | response status body => cases body <;> rfl

/-- A call of `GetQuestions` panics exactly when the URL does not parse. -/
theorem GetQuestions_result_none (env : Env) (ids : List String) (from_ to_ : Int) :
    (GetQuestions env ids from_ to_).result = none ↔ requestURL ids from_ to_ = none := by
  unfold GetQuestions
  cases requestURL ids from_ to_ with
  | none => simp
  | some url =>
    simp only
    cases env.httpGet url with
    | failure err => simp
    | response status body => cases body <;> simp

theorem GetQuestions_events_csv (env : Env) (ids : List String) (from_ to_ : Int) :
    csvRecords (GetQuestions env ids from_ to_).events = []
      ∧ getQuestionsCalls (GetQuestions env ids from_ to_).events = 0 := by
  rw [GetQuestions_events]
  cases requestURL ids from_ to_ <;> simp [csvRecords, getQuestionsCalls]

/-- The events of `main` up to the return of `GetQuestions`. -/
theorem main_start_records (env : Env) (input : String) (tail : List Event) :
    csvRecords ([Event.println "Starting the application..."] ++ (LoadConfiguration env input).1
        ++ [Event.osCreate (LoadConfiguration env input).2.Output]
        ++ [Event.callGetQuestions (LoadConfiguration env input).2.QuestionIds
              (parseUnix (LoadConfiguration env input).2.From)
              (parseUnix (LoadConfiguration env input).2.To)]
        ++ (callOf env (LoadConfiguration env input).2).events ++ tail)
      = csvRecords tail := by
  simp [csvRecords_append, csvRecords, (LoadConfiguration_events env input).1, callOf,
    (GetQuestions_events_csv env _ _ _).1]

/-- The run of `main` when `GetQuestions` returns a nil error. -/
theorem main_of_success (env : Env) (input : String) (questions : QuestionsResponse)
    (h : (callOf env (LoadConfiguration env input).2).result = some (questions, none)) :
    (main env input).panic = none
      ∧ csvRecords (main env input).trace
          = csvHeader :: questions.Items.map (csvRecord env) := by
  unfold callOf at h
  have hm : main env input
      = { trace := [Event.println "Starting the application..."]
            ++ (LoadConfiguration env input).1
            ++ [Event.osCreate (LoadConfiguration env input).2.Output]
            ++ [Event.callGetQuestions (LoadConfiguration env input).2.QuestionIds
                  (parseUnix (LoadConfiguration env input).2.From)
                  (parseUnix (LoadConfiguration env input).2.To)]
            ++ (callOf env (LoadConfiguration env input).2).events
            ++ ([Event.println ("Questions found: " ++ FormatInt (questions.Items.length : Int))]
              ++ [Event.csvWrite csvHeader]
              ++ questions.Items.map (fun question => Event.csvWrite (csvRecord env question))
              ++ [Event.csvFlush])
          panic := none } := by
    simp only [main, callOf, h, List.append_assoc]
  rw [hm]
  refine ⟨rfl, ?_⟩
  rw [main_start_records]
  simp [csvRecords_append, csvRecords, csvRecords_map_csvWrite]

/-- The run of `main` when `GetQuestions` returns an error. -/
theorem main_of_error (env : Env) (input : String) (questions : QuestionsResponse)
    (err : GoError)
    (h : (callOf env (LoadConfiguration env input).2).result = some (questions, some err)) :
    (main env input).panic = some (PanicValue.error err)
      ∧ csvRecords (main env input).trace = [] := by
  unfold callOf at h
  have hm : main env input
      = { trace := [Event.println "Starting the application..."]
            ++ (LoadConfiguration env input).1
            ++ [Event.osCreate (LoadConfiguration env input).2.Output]
            ++ [Event.callGetQuestions (LoadConfiguration env input).2.QuestionIds
                  (parseUnix (LoadConfiguration env input).2.From)
                  (parseUnix (LoadConfiguration env input).2.To)]
            ++ (callOf env (LoadConfiguration env input).2).events ++ []
          panic := some (PanicValue.error err) } := by
    simp only [main, callOf, h, List.append_assoc, List.append_nil]
  rw [hm]
  refine ⟨rfl, ?_⟩
  rw [main_start_records]
  rfl

/-! ## C1, C10: the records written -/

/-- Sample values of the date column: UTC, a zone east of UTC on a leap day, a zone west of
UTC with a half hour, and the first second of year 1. -/
theorem formatRFC3339_examples :
    formatRFC3339 (fun _ => 0) 0 = "1970-01-01T00:00:00Z"
      ∧ formatRFC3339 (fun _ => 3600) 1582934400 = "2020-02-29T01:00:00+01:00"
      ∧ formatRFC3339 (fun _ => -19800) 951782400 = "2000-02-28T18:30:00-05:30"
      ∧ formatRFC3339 (fun _ => 0) (-62135596800) = "0001-01-01T00:00:00Z" := by
  decide

/-- C1: when `GetQuestions` returns a response with a nil error, the records `main` passes to
the CSV writer are the header followed by one record per item in response
order, each item's record being its title, link, tags joined with `/`,
`true` or `false`, the decimal answer and view counts and the RFC 3339 text
of the creation date; so there are `len(Items)` data rows and every record
has 7 fields. -/
theorem C1_csv_records (env : Env) (input : String) (inputData : InputData)
    (questions : QuestionsResponse)
    (hload : (LoadConfiguration env input).2 = inputData)
    (hget : (GetQuestions env inputData.QuestionIds (parseUnix inputData.From)
        (parseUnix inputData.To)).result = some (questions, none)) :
    csvRecords (main env input).trace
        = ["Title", "Link", "Tags", "Answered", "Answer Count", "View Count", "Creation Date"]
          :: questions.Items.map (fun item =>
              [item.Title, item.Link, Join item.Tags "/",
                (if item.IsAnswered then "true" else "false"),
                FormatInt item.AnswerCount, FormatInt item.ViewCount,
                formatRFC3339 env.zone item.CreationDate])
      ∧ (csvRecords (main env input).trace).length = questions.Items.length + 1
      ∧ ∀ record ∈ csvRecords (main env input).trace, record.length = 7 := by
  subst hload
  have h := (main_of_success env input questions hget).2
  have hrec : (fun item : Item =>
      [item.Title, item.Link, Join item.Tags "/",
        (if item.IsAnswered then "true" else "false"),
        FormatInt item.AnswerCount, FormatInt item.ViewCount,
        formatRFC3339 env.zone item.CreationDate]) = csvRecord env := by
    funext item
    simp [csvRecord, FormatBool]
  rw [hrec, h]
  refine ⟨rfl, by simp, ?_⟩
  intro record hmem
  rcases List.mem_cons.1 hmem with h1 | h1
  · subst h1
    rfl
  · obtain ⟨item, -, rfl⟩ := List.mem_map.1 h1
    rfl

/-- C1 at `sampleEnv`: one item, two records. -/
theorem C1_csv_records_witness :
    csvRecords (main sampleEnv "input.json").trace
      = [["Title", "Link", "Tags", "Answered", "Answer Count", "View Count", "Creation Date"],
          ["How?", "https://stackoverflow.com/q/42", "go/mongodb", "true", "2", "10",
            "2020-02-29T00:00:00Z"]] := by
  have h := (C1_csv_records sampleEnv "input.json" sampleConfig
    { Items := [sampleItem], HasMore := true, QuotaMax := 0, QuotaRemaining := 0 }
    (by decide) (by decide)).1
  rw [h]
  decide

/-- One record depends only on the seven written fields and on the time zone. -/
theorem csvRecord_congr (env1 env2 : Env) (a b : Item) (hzone : env1.zone = env2.zone)
    (h : Item.sameSelected a b) : csvRecord env1 a = csvRecord env2 b := by
  obtain ⟨h1, h2, h3, h4, h5, h6, h7⟩ := h
  simp [csvRecord, h1, h2, h3, h4, h5, h6, h7, hzone]

theorem csvRecord_map_congr (env1 env2 : Env) (hzone : env1.zone = env2.zone) :
    ∀ (l1 l2 : List Item), List.Forall₂ Item.sameSelected l1 l2 →
      l1.map (csvRecord env1) = l2.map (csvRecord env2) := by
  intro l1 l2 h
  induction h with
  | nil => simp
  | cons hab _ ih =>
    rw [List.map_cons, List.map_cons, csvRecord_congr env1 env2 _ _ hzone hab, ih]

/-- C10: two runs in the same time zone whose responses have equally many items that agree
pairwise on title, link, tags, answered flag, answer count, view count and
creation date pass the same records to the CSV writer, whatever the other
fields of the items and of the responses are. -/
theorem C10_records_depend_on_selected_fields (env1 env2 : Env) (input1 input2 : String)
    (q1 q2 : QuestionsResponse)
    (hzone : env1.zone = env2.zone)
    (h1 : (callOf env1 (LoadConfiguration env1 input1).2).result = some (q1, none))
    (h2 : (callOf env2 (LoadConfiguration env2 input2).2).result = some (q2, none))
    (hlen : q1.Items.length = q2.Items.length)
    (hsame : ∀ (i : Nat) (hi1 : i < q1.Items.length) (hi2 : i < q2.Items.length),
      Item.sameSelected (q1.Items.get ⟨i, hi1⟩) (q2.Items.get ⟨i, hi2⟩)) :
    csvRecords (main env1 input1).trace = csvRecords (main env2 input2).trace := by
  rw [(main_of_success env1 input1 q1 h1).2, (main_of_success env2 input2 q2 h2).2,
    csvRecord_map_congr env1 env2 hzone _ _ (List.forall₂_iff_get.2 ⟨hlen, hsame⟩)]

/-- C10 at `sampleEnv` and `sampleEnvOther`, whose items differ in owner, score, activity
and edit dates and question id, and whose responses differ in `has_more`. -/
theorem C10_records_depend_on_selected_fields_witness :
    sampleItem ≠ sampleItemOther
      ∧ csvRecords (main sampleEnv "input.json").trace
          = csvRecords (main sampleEnvOther "input.json").trace :=
  ⟨by decide,
    C10_records_depend_on_selected_fields sampleEnv sampleEnvOther "input.json" "input.json"
      { Items := [sampleItem], HasMore := true, QuotaMax := 0, QuotaRemaining := 0 }
      { Items := [sampleItemOther], HasMore := false, QuotaMax := 0, QuotaRemaining := 0 }
      rfl (by decide) (by decide) rfl
      (by
        intro i hi1 hi2
        have hi : i = 0 := by simpa using hi1
        subst hi
        exact ⟨rfl, rfl, rfl, rfl, rfl, rfl, rfl⟩)⟩

/-! ## C2, C4: errors of `GetQuestions` -/

theorem ErrorResponse.ne_zero_iff (r : ErrorResponse) :
    r ≠ ErrorResponse.zero ↔ (r.ErrorId ≠ 0 ∨ r.ErrorMessage ≠ "" ∨ r.ErrorName ≠ "") := by
  obtain ⟨i, m, n⟩ := r
  simp only [ErrorResponse.zero, ne_eq, ErrorResponse.mk.injEq]
  tauto

/-- What `GetQuestions` returns once the body was read. -/
theorem GetQuestions_of_body (env : Env) (ids : List String) (from_ to_ : Int) (url : Bytes)
    (status : Nat) (data : Bytes)
    (hurl : requestURL ids from_ to_ = some url)
    (hget : env.httpGet url = HttpResult.response status (Except.ok data)) :
    GetQuestions env ids from_ to_
      = { events := [Event.httpGet url], result := some (decodeBody env data) } := by
  simp only [GetQuestions, hurl, hget]

/-- C2: for a body that was read, `GetQuestions` returns a non-nil error exactly when the
`ErrorResponse` decoded from the body has a non-zero field; then the error
text is `error_name + ": " + error_message` and the response returned is the
zero value; otherwise the decoded questions are returned with a nil error. -/
theorem C2_error_iff_error_payload (env : Env) (ids : List String) (from_ to_ : Int)
    (url : Bytes) (status : Nat) (data : Bytes) (decoded : ErrorResponse)
    (hurl : requestURL ids from_ to_ = some url)
    (hget : env.httpGet url = HttpResult.response status (Except.ok data))
    (hdecoded : decoded = unmarshalErrorResponse (env.jsonParse data) ErrorResponse.zero) :
    ∃ (questions : QuestionsResponse) (err : Option GoError),
      (GetQuestions env ids from_ to_).result = some (questions, err)
      ∧ (err ≠ none
          ↔ (decoded.ErrorId ≠ 0 ∨ decoded.ErrorMessage ≠ "" ∨ decoded.ErrorName ≠ ""))
      ∧ (err ≠ none →
          questions = QuestionsResponse.zero ∧ questions.Items = []
          ∧ err = some (GoError.new (decoded.ErrorName ++ ": " ++ decoded.ErrorMessage))
          ∧ ∀ e, err = some e → e.Error = decoded.ErrorName ++ ": " ++ decoded.ErrorMessage)
      ∧ (err = none →
          questions
            = unmarshalQuestions env (env.jsonParse data) QuestionsResponse.zero) := by
  rw [GetQuestions_of_body env ids from_ to_ url status data hurl hget]
  simp only [decodeBody, ← hdecoded]
  by_cases hz : decoded ≠ ErrorResponse.zero
  · refine ⟨QuestionsResponse.zero,
      some (GoError.new (decoded.ErrorName ++ ": " ++ decoded.ErrorMessage)), ?_, ?_, ?_, ?_⟩
    · simp [hz]
    · simp [← ErrorResponse.ne_zero_iff, hz]
    · intro _
      refine ⟨rfl, rfl, rfl, ?_⟩
      intro e he
      cases he
      rfl
    · intro h
      cases h
  · refine ⟨unmarshalQuestions env (env.jsonParse data) QuestionsResponse.zero, none,
      ?_, ?_, ?_, ?_⟩
    · simp [hz]
    · simp [← ErrorResponse.ne_zero_iff, hz]
    · intro h
      exact absurd rfl h
    · intro _
      rfl

/-- C2 at `apiErrorEnv`, whose body carries an error object and an item: the error is
`bad_parameter: ids` and no item is returned. -/
theorem C2_error_iff_error_payload_witness :
    (GetQuestions apiErrorEnv ["42"] 0 0).result
      = some (QuestionsResponse.zero, some (GoError.new "bad_parameter: ids")) := by
  obtain ⟨questions, err, hres, hiff, herr, -⟩ :=
    C2_error_iff_error_payload apiErrorEnv ["42"] 0 0
      (toBytes "https://api.stackexchange.com/2.2/questions/42?site=stackoverflow") 400 []
      { ErrorId := 400, ErrorMessage := "ids", ErrorName := "bad_parameter" }
      (by decide) rfl (by decide)
  have hne : err ≠ none := hiff.2 (Or.inl (by decide))
  obtain ⟨hq, -, he, -⟩ := herr hne
  rw [hres, hq, he]
  decide

/-- C4: when `http.Get` returns an error, or reading the body does, `GetQuestions` returns
that error with the zero response; and whenever `GetQuestions` returns an
error, `main` panics with it and no record, header included, has been passed
to the CSV writer. -/
theorem C4_http_failure_aborts (env : Env) (ids : List String) (from_ to_ : Int)
    (url : Bytes) (hurl : requestURL ids from_ to_ = some url) :
    (∀ err, env.httpGet url = HttpResult.failure err →
        (GetQuestions env ids from_ to_).result = some (QuestionsResponse.zero, some err))
      ∧ (∀ status err, env.httpGet url = HttpResult.response status (Except.error err) →
        (GetQuestions env ids from_ to_).result = some (QuestionsResponse.zero, some err))
      ∧ (∀ (input : String) (questions : QuestionsResponse) (err : GoError),
        (GetQuestions env (LoadConfiguration env input).2.QuestionIds
            (parseUnix (LoadConfiguration env input).2.From)
            (parseUnix (LoadConfiguration env input).2.To)).result
          = some (questions, some err) →
        (main env input).panic = some (PanicValue.error err)
          ∧ csvRecords (main env input).trace = []) := by
  refine ⟨?_, ?_, ?_⟩
  · intro err hget
    simp only [GetQuestions, hurl, hget]
  · intro status err hget
    simp only [GetQuestions, hurl, hget]
  · intro input questions err h
    exact main_of_error env input questions err h

/-- C4 at `offlineEnv`: the run panics with the error of `http.Get` and writes nothing. -/
theorem C4_http_failure_aborts_witness :
    (GetQuestions offlineEnv ["42", "43"] 1577836800 (-62135596800)).result
        = some (QuestionsResponse.zero, some (GoError.lib "dial tcp: no route to host"))
      ∧ (main offlineEnv "input.json").panic
          = some (PanicValue.error (GoError.lib "dial tcp: no route to host"))
      ∧ csvRecords (main offlineEnv "input.json").trace = [] := by
  have h := C4_http_failure_aborts offlineEnv ["42", "43"] 1577836800 (-62135596800)
    (toBytes
      "https://api.stackexchange.com/2.2/questions/42;43?fromdate=1577836800&site=stackoverflow")
    (by decide)
  have h1 := h.1 (GoError.lib "dial tcp: no route to host") rfl
  exact ⟨h1, h.2.2 "input.json" QuestionsResponse.zero _ (by decide)⟩

/-! ## C3, C6: what a run does before and around the request -/

/-- Every run starts with the greeting, the loading of the configuration, the creation of the
output file, one call of `GetQuestions` and that call's events; what follows
holds no further call and no HTTP request. -/
theorem main_trace_shape (env : Env) (input : String) :
    ∃ tail : List Event,
      (main env input).trace
        = [Event.println "Starting the application..."] ++ (LoadConfiguration env input).1
          ++ [Event.osCreate (LoadConfiguration env input).2.Output]
          ++ [Event.callGetQuestions (LoadConfiguration env input).2.QuestionIds
                (parseUnix (LoadConfiguration env input).2.From)
                (parseUnix (LoadConfiguration env input).2.To)]
          ++ (callOf env (LoadConfiguration env input).2).events ++ tail
      ∧ httpCalls tail = [] ∧ getQuestionsCalls tail = 0 := by
  cases h : (callOf env (LoadConfiguration env input).2).result with
  | none =>
    refine ⟨[], ?_, rfl, rfl⟩
    unfold callOf at h
    simp only [main, callOf, h, List.append_assoc, List.append_nil]
  | some p =>
    obtain ⟨questions, e⟩ := p
    cases e with
    | some err =>
      refine ⟨[], ?_, rfl, rfl⟩
      unfold callOf at h
      simp only [main, callOf, h, List.append_assoc, List.append_nil]
    | none =>
      refine ⟨[Event.println ("Questions found: " ++ FormatInt (questions.Items.length : Int))]
        ++ [Event.csvWrite csvHeader]
        ++ questions.Items.map (fun question => Event.csvWrite (csvRecord env question))
        ++ [Event.csvFlush], ?_, ?_, ?_⟩
      · unfold callOf at h
        simp only [main, callOf, h, List.append_assoc]
      · simp [httpCalls_append, httpCalls, httpCalls_map_csvWrite]
      · simp [getQuestionsCalls_append, getQuestionsCalls, getQuestionsCalls_map_csvWrite]

/-- The HTTP requests of a run: the request URL of the one call, when that URL parses. -/
theorem main_httpCalls (env : Env) (input : String) :
    httpCalls (main env input).trace
      = match requestURL (LoadConfiguration env input).2.QuestionIds
            (parseUnix (LoadConfiguration env input).2.From)
            (parseUnix (LoadConfiguration env input).2.To) with
        | none => []
        | some url => [url] := by
  obtain ⟨tail, htrace, hhttp, -⟩ := main_trace_shape env input
  rw [htrace]
  simp only [httpCalls_append, hhttp, (LoadConfiguration_events env input).2.1, callOf,
    GetQuestions_events]
  cases requestURL (LoadConfiguration env input).2.QuestionIds
      (parseUnix (LoadConfiguration env input).2.From)
      (parseUnix (LoadConfiguration env input).2.To) <;> simp [httpCalls]

/-- Every run calls `GetQuestions` once. -/
theorem main_getQuestionsCalls (env : Env) (input : String) :
    getQuestionsCalls (main env input).trace = 1 := by
  obtain ⟨tail, htrace, -, hcalls⟩ := main_trace_shape env input
  rw [htrace]
  simp [getQuestionsCalls_append, hcalls, (LoadConfiguration_events env input).2.2, callOf,
    (GetQuestions_events_csv env _ _ _).2, getQuestionsCalls]

/-- C3, as stated, fails: in `sampleEnv` the file `missing.json` cannot be opened, yet the run
does not panic, requests `/2.2/questions/?site=stackoverflow` and passes the
header and a record to the CSV writer. -/
theorem C3_counterexample_open_failure_continues :
    sampleEnv.osOpen "missing.json" = Except.error (GoError.lib "open: no such file")
      ∧ (main sampleEnv "missing.json").panic = none
      ∧ httpCalls (main sampleEnv "missing.json").trace
          = [toBytes "https://api.stackexchange.com/2.2/questions/?site=stackoverflow"]
      ∧ csvRecords (main sampleEnv "missing.json").trace
          = [csvHeader,
              ["How?", "https://stackoverflow.com/q/42", "go/mongodb", "true", "2", "10",
                "2020-02-29T00:00:00Z"]] :=
  ⟨rfl, by decide, by decide, by decide⟩

/-- C3, amended: when the configuration file cannot be opened, `LoadConfiguration` prints the
error and returns the zero `InputData`; the run is not aborted there: `main`
calls `os.Create` with the empty `Output`, then `GetQuestions` once with no
ids and both dates at the zero time, which requests
`/2.2/questions/?site=stackoverflow`; the run then panics exactly when that
call returns an error, and otherwise writes the header and one record per
returned item. -/
theorem C3_open_failure_continues (env : Env) (input : String) (err : GoError)
    (hopen : env.osOpen input = Except.error err) :
    LoadConfiguration env input
        = ([Event.osOpen input, Event.println err.Error], InputData.zero)
      ∧ (main env input).trace.take 6
          = [Event.println "Starting the application...", Event.osOpen input,
              Event.println err.Error, Event.osCreate "",
              Event.callGetQuestions [] (-62135596800) (-62135596800),
              Event.httpGet
                (toBytes "https://api.stackexchange.com/2.2/questions/?site=stackoverflow")]
      ∧ httpCalls (main env input).trace
          = [toBytes "https://api.stackexchange.com/2.2/questions/?site=stackoverflow"]
      ∧ getQuestionsCalls (main env input).trace = 1
      ∧ (∀ questions,
          (GetQuestions env [] (-62135596800) (-62135596800)).result = some (questions, none) →
          (main env input).panic = none
            ∧ csvRecords (main env input).trace
                = csvHeader :: questions.Items.map (csvRecord env))
      ∧ (∀ questions e,
          (GetQuestions env [] (-62135596800) (-62135596800)).result
            = some (questions, some e) →
          (main env input).panic = some (PanicValue.error e)
            ∧ csvRecords (main env input).trace = []) := by
  have hload : LoadConfiguration env input
      = ([Event.osOpen input, Event.println err.Error], InputData.zero) := by
    simp only [LoadConfiguration, hopen]
  have hzero : parseUnix "" = -62135596800 := by decide
  have hurl : requestURL [] (-62135596800) (-62135596800)
      = some (toBytes "https://api.stackexchange.com/2.2/questions/?site=stackoverflow") := by
    decide
  have hcall : callOf env (LoadConfiguration env input).2
      = GetQuestions env [] (-62135596800) (-62135596800) := by
    rw [hload]
    simp only [callOf, InputData.zero, hzero]
  refine ⟨hload, ?_, ?_, main_getQuestionsCalls env input, ?_, ?_⟩
  · obtain ⟨tail, htrace, -, -⟩ := main_trace_shape env input
    rw [htrace, hcall, GetQuestions_events, hurl, hload]
    simp only [InputData.zero, hzero]
    rfl
  · rw [main_httpCalls, hload]
    simp only [InputData.zero, hzero, hurl]
  · intro questions h
    exact main_of_success env input questions (by rw [hcall]; exact h)
  · intro questions e h
    exact main_of_error env input questions e (by rw [hcall]; exact h)

/-- C3, amended, at `sampleEnv` and the file `missing.json`. -/
theorem C3_open_failure_continues_witness :
    LoadConfiguration sampleEnv "missing.json"
        = ([Event.osOpen "missing.json", Event.println "open: no such file"], InputData.zero)
      ∧ getQuestionsCalls (main sampleEnv "missing.json").trace = 1 := by
  have h := C3_open_failure_continues sampleEnv "missing.json"
    (GoError.lib "open: no such file") rfl
  exact ⟨h.1, h.2.2.2.1⟩

/-! ## Lemmas on bytes, escaping and the request URL -/

theorem utf8_append (a b : List Char) : utf8 (a ++ b) = utf8 a ++ utf8 b := by
  induction a with
  | nil => rfl
  | cons c rest ih => simp [utf8, ih]

theorem toBytes_append (a b : String) : toBytes (a ++ b) = toBytes a ++ toBytes b := by
  simp [toBytes, utf8_append]

/-- A decimal digit is one byte, in `48..57`. -/
theorem utf8Char_digit (c : Char) (h : c.isDigit = true) :
    utf8Char c = [c.toNat] ∧ isDigitByte c.toNat = true := by
  have h1 : 48 ≤ c.toNat ∧ c.toNat ≤ 57 := by
    simp only [Char.isDigit, Bool.and_eq_true, decide_eq_true_eq, UInt32.le_def,
      Fin.le_def] at h
    exact ⟨h.1, h.2⟩
  constructor
  · unfold utf8Char
    simp only
    rw [if_pos (by omega)]
  · simp [isDigitByte, h1.1, h1.2]

theorem utf8_digits (cs : List Char) (h : ∀ c ∈ cs, c.isDigit = true) :
    ∀ b ∈ utf8 cs, isDigitByte b = true := by
  induction cs with
  | nil => simp [utf8]
  | cons c rest ih =>
    intro b hb
    simp only [utf8, (utf8Char_digit c (h c (List.mem_cons_self c rest))).1,
      List.singleton_append, List.mem_cons] at hb
    rcases hb with rfl | hb
    · exact (utf8Char_digit c (h c (List.mem_cons_self c rest))).2
    · exact ih (fun c hc => h c (List.mem_cons_of_mem _ hc)) b hb

theorem digitChar_isDigit (d : Nat) (h : d < 10) : (Nat.digitChar d).isDigit = true := by
  interval_cases d <;> decide

theorem toDigitsCore_isDigit (fuel : Nat) :
    ∀ (n : Nat) (ds : List Char), (∀ c ∈ ds, c.isDigit = true) →
      ∀ c ∈ Nat.toDigitsCore 10 fuel n ds, c.isDigit = true := by
  induction fuel with
  | zero =>
    intro n ds hds c hc
    simpa [Nat.toDigitsCore] using hds c (by simpa [Nat.toDigitsCore] using hc)
  | succ fuel ih =>
    intro n ds hds c hc
    simp only [Nat.toDigitsCore] at hc
    have hcons : ∀ c ∈ Nat.digitChar (n % 10) :: ds, c.isDigit = true := by
      intro c hc
      rcases List.mem_cons.1 hc with rfl | hc
      · exact digitChar_isDigit _ (Nat.mod_lt _ (by decide))
      · exact hds c hc
    split at hc
    · exact hcons c hc
    · exact ih _ _ hcons c hc

/-- The decimal text of a natural number consists of digits. -/
theorem repr_isDigit (n : Nat) : ∀ c ∈ (Nat.repr n).data, c.isDigit = true := by
  intro c hc
  exact toDigitsCore_isDigit _ n [] (by simp) c (by simpa [Nat.repr, Nat.toDigits] using hc)

/-- The decimal text of a non-negative integer consists of digit bytes. -/
theorem FormatInt_digits (i : Int) (h : 0 ≤ i) :
    ∀ b ∈ toBytes (FormatInt i), isDigitByte b = true := by
  have : FormatInt i = Nat.repr i.natAbs := by
    unfold FormatInt
    rw [if_neg (by omega)]
  rw [this]
  exact utf8_digits _ (repr_isDigit _)

theorem escapeByte_digit (mode : EncodeMode) (b : Nat) (h : isDigitByte b = true) :
    escapeByte mode b = [b] := by
  have h1 : 48 ≤ b ∧ b ≤ 57 := by simpa [isDigitByte] using h
  have h2 : isAlnumByte b = true := by simp [isAlnumByte, h1.1, h1.2]
  unfold escapeByte shouldEscape
  rw [if_neg (by omega), if_pos h2]
  simp

theorem escape_digits (mode : EncodeMode) (s : Bytes) (h : ∀ b ∈ s, isDigitByte b = true) :
    escape mode s = s := by
  induction s with
  | nil => rfl
  | cons b rest ih =>
    simp [escape, escapeByte_digit mode b (h b (List.mem_cons_self b rest)),
      ih (fun c hc => h c (List.mem_cons_of_mem _ hc))]

theorem cut_of_not_mem (sep : Nat) (s : Bytes) (h : sep ∉ s) : cut sep s = (s, [], false) := by
  induction s with
  | nil => rfl
  | cons b rest ih =>
    have hb : b ≠ sep := fun hb => h (hb ▸ List.mem_cons_self b rest)
    have hr : sep ∉ rest := fun hr => h (List.mem_cons_of_mem _ hr)
    simp [cut, hb, ih hr]

theorem cut_fst_subset (sep : Nat) (s : Bytes) : ∀ b ∈ (cut sep s).1, b ∈ s := by
  induction s with
  | nil => simp [cut]
  | cons c rest ih =>
    intro b hb
    by_cases hc : c = sep
    · simp [cut, hc] at hb
    · simp only [cut, hc, if_false, List.mem_cons] at hb
      rcases hb with rfl | hb
      · exact List.mem_cons_self _ _
      · exact List.mem_cons_of_mem _ (ih b hb)

/-- Text without `%` (and, in a query component, without `+`) unescapes to itself. -/
theorem unescape_of_no_percent (mode : EncodeMode) (s : Bytes)
    (h : ∀ b ∈ s, b ≠ 37 ∧ (b = 43 → mode ≠ EncodeMode.queryComponent)) :
    unescape mode s = some s := by
  induction s with
  | nil => rfl
  | cons b rest ih =>
    have hb := h b (List.mem_cons_self b rest)
    have hr := ih (fun c hc => h c (List.mem_cons_of_mem _ hc))
    unfold unescape
    rw [if_neg hb.1, if_neg (fun hc => hb.2 hc.1 hc.2), hr]
    rfl

/-- Text of bytes that the mode leaves alone escapes to itself. -/
theorem escape_of_unreserved (mode : EncodeMode) (s : Bytes)
    (h : ∀ b ∈ s, shouldEscape b mode = false) : escape mode s = s := by
  induction s with
  | nil => rfl
  | cons b rest ih =>
    have hb := h b (List.mem_cons_self b rest)
    have hr := ih (fun c hc => h c (List.mem_cons_of_mem _ hc))
    have hsp : ¬(b = 32 ∧ mode = EncodeMode.queryComponent) := by
      rintro ⟨rfl, rfl⟩
      revert hb
      decide
    simp [escape, escapeByte, hsp, hb, hr]

theorem cut_snd_subset (sep : Nat) (s : Bytes) : ∀ b ∈ (cut sep s).2.1, b ∈ s := by
  induction s with
  | nil => simp [cut]
  | cons c rest ih =>
    intro b hb
    by_cases hc : c = sep
    · simp only [cut, hc, if_true] at hb
      exact List.mem_cons_of_mem _ hb
    · simp only [cut, hc, if_false] at hb
      exact List.mem_cons_of_mem _ (ih b hb)

theorem stringContainsCTLByte_eq_false (s : Bytes) (h : ∀ b ∈ s, 32 ≤ b ∧ b ≠ 127) :
    stringContainsCTLByte s = false := by
  simp only [stringContainsCTLByte, List.any_eq_false, Bool.or_eq_true, decide_eq_true_eq,
    beq_iff_eq, not_or, not_lt]
  exact h

/-- The request URL of ids whose joined text has no `?` starts from an empty query. -/
theorem parseEndpoint_no_query (tail : Bytes) (endpoint : URL) (hq : 63 ∉ tail)
    (h : parseEndpoint tail = some endpoint) :
    endpoint.RawQuery = [] ∧ endpoint.ForceQuery = false := by
  unfold parseEndpoint at h
  have hu : 63 ∉ (cut 35 tail).1 := fun hm => hq (cut_fst_subset 35 tail 63 hm)
  have hcount : ¬((cut 35 tail).1.getLast? = some 63 ∧ (cut 35 tail).1.count 63 = 1) := by
    rintro ⟨-, hc⟩
    rw [List.count_eq_zero_of_not_mem hu] at hc
    exact absurd hc (by decide)
  simp only [hcount, if_false, cut_of_not_mem 63 _ hu] at h
  split at h
  · exact absurd h (by simp)
  · split at h
    · exact absurd h (by simp)
    · split at h
      · cases h
        exact ⟨rfl, rfl⟩
      · split at h
        · exact absurd h (by simp)
        · cases h
          exact ⟨rfl, rfl⟩

/-- The URL of joined ids without `#`, `?`, `%` and control bytes parses, with the whole text
in the path. -/
theorem parseEndpoint_of_plain (tail : Bytes)
    (h : ∀ b ∈ tail, b ≠ 35 ∧ b ≠ 63 ∧ b ≠ 37 ∧ 32 ≤ b ∧ b ≠ 127) :
    parseEndpoint tail
      = some
        { Scheme := toBytes "https"
          Host := toBytes "api.stackexchange.com"
          Path := toBytes "/2.2/questions/" ++ tail
          RawPath :=
            if escape EncodeMode.path (toBytes "/2.2/questions/" ++ tail)
                = toBytes "/2.2/questions/" ++ tail then []
            else toBytes "/2.2/questions/" ++ tail
          ForceQuery := false
          RawQuery := []
          Fragment := []
          RawFragment := [] } := by
  have h35 : 35 ∉ tail := fun hm => (h 35 hm).1 rfl
  have h63 : 63 ∉ tail := fun hm => (h 63 hm).2.1 rfl
  have hctl : stringContainsCTLByte tail = false :=
    stringContainsCTLByte_eq_false tail (fun b hb => (h b hb).2.2.2)
  have hbase : ∀ b ∈ toBytes "/2.2/questions/", b ≠ 37 := by decide
  have hun : unescape EncodeMode.path (toBytes "/2.2/questions/" ++ tail)
      = some (toBytes "/2.2/questions/" ++ tail) := by
    apply unescape_of_no_percent
    intro b hb
    refine ⟨?_, fun _ => by decide⟩
    rcases List.mem_append.1 hb with hb | hb
    · exact hbase b hb
    · exact (h b hb).2.2.1
  have hcount : ¬(tail.getLast? = some 63 ∧ tail.count 63 = 1) := by
    rintro ⟨-, hc⟩
    rw [List.count_eq_zero_of_not_mem h63] at hc
    exact absurd hc (by decide)
  unfold parseEndpoint
  simp only [cut_of_not_mem 35 tail h35, hctl, hcount, if_false, cut_of_not_mem 63 tail h63,
    hun, if_true, Bool.false_eq_true]

/-- The URL of joined ids without `%` and control bytes parses. -/
theorem parseEndpoint_isSome (tail : Bytes) (h : ∀ b ∈ tail, b ≠ 37 ∧ 32 ≤ b ∧ b ≠ 127) :
    ∃ endpoint, parseEndpoint tail = some endpoint := by
  have hu : ∀ b ∈ (cut 35 tail).1, b ≠ 37 ∧ 32 ≤ b ∧ b ≠ 127 :=
    fun b hb => h b (cut_fst_subset 35 tail b hb)
  have hfrag : ∀ b ∈ (cut 35 tail).2.1, b ≠ 37 ∧ 32 ≤ b ∧ b ≠ 127 :=
    fun b hb => h b (cut_snd_subset 35 tail b hb)
  have hctl : stringContainsCTLByte (cut 35 tail).1 = false :=
    stringContainsCTLByte_eq_false _ (fun b hb => (hu b hb).2)
  have hbase : ∀ b ∈ toBytes "/2.2/questions/", b ≠ 37 := by decide
  have hun : ∀ rest : Bytes, (∀ b ∈ rest, b ∈ (cut 35 tail).1) →
      unescape EncodeMode.path (toBytes "/2.2/questions/" ++ rest)
        = some (toBytes "/2.2/questions/" ++ rest) := by
    intro rest hrest
    apply unescape_of_no_percent
    intro b hb
    refine ⟨?_, fun _ => by decide⟩
    rcases List.mem_append.1 hb with hb | hb
    · exact hbase b hb
    · exact (hu b (hrest b hb)).1
  have hunf : unescape EncodeMode.fragment (cut 35 tail).2.1 = some (cut 35 tail).2.1 :=
    unescape_of_no_percent _ _ (fun b hb => ⟨(hfrag b hb).1, fun _ => by decide⟩)
  unfold parseEndpoint
  simp only [hctl, Bool.false_eq_true, if_false]
  by_cases hc : (cut 35 tail).1.getLast? = some 63 ∧ (cut 35 tail).1.count 63 = 1
  · simp only [hc, and_self, if_true,
      hun (cut 35 tail).1.dropLast (fun b hb => List.dropLast_subset _ hb), hunf]
    split <;> simp
  · simp only [hc, if_false,
      hun (cut 63 (cut 35 tail).1).1 (fun b hb => cut_fst_subset 63 _ b hb), hunf]
    split <;> simp

/-- The query of a URL without query text is empty. -/
theorem Query_of_empty (endpoint : URL) (h : endpoint.RawQuery = []) : endpoint.Query = [] := by
  simp [URL.Query, h, splitBytes, parseQueryPair]

/-- Lines 72-78 on an empty query give the parameters the specification lists. -/
theorem setQueryParams_nil (from_ to_ : Int) :
    setQueryParams [] from_ to_ = specParams from_ to_ := by
  have hsite : toBytes "site" = [115, 105, 116, 101] := by decide
  have hfrom : toBytes "fromdate" = [102, 114, 111, 109, 100, 97, 116, 101] := by decide
  have hto : toBytes "todate" = [116, 111, 100, 97, 116, 101] := by decide
  unfold setQueryParams specParams
  rw [hsite, hfrom, hto]
  by_cases hf : from_ > 0 <;> by_cases ht : to_ > 0 <;>
    simp [hf, ht, Values.Set, bytesLt]

/-- The `Encode` of the listed parameters is the query text the specification describes. -/
theorem Encode_specParams (from_ to_ : Int) :
    (specParams from_ to_).Encode = specQuery from_ to_ := by
  have hsite : escape EncodeMode.queryComponent (toBytes "site") = toBytes "site" := by decide
  have hso : escape EncodeMode.queryComponent (toBytes "stackoverflow")
      = toBytes "stackoverflow" := by decide
  have hfrom : escape EncodeMode.queryComponent (toBytes "fromdate") = toBytes "fromdate" := by
    decide
  have hto : escape EncodeMode.queryComponent (toBytes "todate") = toBytes "todate" := by decide
  have h1 : toBytes "site=stackoverflow" = toBytes "site" ++ [61] ++ toBytes "stackoverflow" := by
    decide
  have h2 : toBytes "fromdate=" = toBytes "fromdate" ++ [61] := by decide
  have h3 : toBytes "todate=" = toBytes "todate" ++ [61] := by decide
  unfold specParams specQuery Values.Encode
  rw [h1, h2, h3]
  by_cases hf : from_ > 0 <;> by_cases ht : to_ > 0
  · simp [hf, ht, hsite, hso, hfrom, hto, List.intercalate, List.intersperse,
      escape_digits _ _ (FormatInt_digits from_ (le_of_lt hf)),
      escape_digits _ _ (FormatInt_digits to_ (le_of_lt ht))]
  · simp [hf, ht, hsite, hso, hfrom, hto, List.intercalate, List.intersperse,
      escape_digits _ _ (FormatInt_digits from_ (le_of_lt hf))]
  · simp [hf, ht, hsite, hso, hfrom, hto, List.intercalate, List.intersperse,
      escape_digits _ _ (FormatInt_digits to_ (le_of_lt ht))]
  · simp [hf, ht, hsite, hso, hfrom, hto, List.intercalate, List.intersperse]

/-- A byte of the UTF-8 encoding of a code point is the code point itself when that is ASCII,
and is at least 128 otherwise. -/
theorem utf8Char_mem (c : Char) (b : Nat) (h : b ∈ utf8Char c) :
    (c.toNat ≤ 127 ∧ b = c.toNat) ∨ 128 ≤ b := by
  unfold utf8Char at h
  simp only at h
  split at h
  · left
    simp only [List.mem_singleton] at h
    exact ⟨by assumption, h⟩
  · right
    split at h
    · simp only [List.mem_cons, List.mem_singleton, List.not_mem_nil, or_false] at h
      omega
    · split at h
      · simp only [List.mem_cons, List.mem_singleton, List.not_mem_nil, or_false] at h
        omega
      · simp only [List.mem_cons, List.mem_singleton, List.not_mem_nil, or_false] at h
        omega

theorem utf8_mem (cs : List Char) (b : Nat) (h : b ∈ utf8 cs) :
    ∃ c ∈ cs, b ∈ utf8Char c := by
  induction cs with
  | nil => simp [utf8] at h
  | cons c rest ih =>
    simp only [utf8, List.mem_append] at h
    rcases h with h | h
    · exact ⟨c, List.mem_cons_self _ _, h⟩
    · obtain ⟨d, hd, hb⟩ := ih h
      exact ⟨d, List.mem_cons_of_mem _ hd, hb⟩

/-- The characters of `Join elems sep` come from the separator or from an element. -/
theorem Join_mem (sep : String) :
    ∀ (elems : List String) (c : Char), c ∈ (Join elems sep).data →
      c ∈ sep.data ∨ ∃ e ∈ elems, c ∈ e.data := by
  intro elems
  induction elems with
  | nil =>
    intro c hc
    simp [Join] at hc
  | cons a rest ih =>
    intro c hc
    cases rest with
    | nil =>
      right
      exact ⟨a, List.mem_cons_self _ _, by simpa [Join] using hc⟩
    | cons b rest2 =>
      simp only [Join, String.data_append, List.mem_append] at hc
      rcases hc with (hc | hc) | hc
      · right
        exact ⟨a, List.mem_cons_self _ _, hc⟩
      · left
        exact hc
      · rcases ih c hc with h | ⟨e, he, hce⟩
        · left
          exact h
        · right
          exact ⟨e, List.mem_cons_of_mem _ he, hce⟩

/-- The bytes of the joined ids, seen from the characters of the ids. -/
theorem joined_bytes (ids : List String) (b : Nat) (h : b ∈ toBytes (Join ids ";")) :
    b = 59 ∨ 128 ≤ b ∨ ∃ id ∈ ids, ∃ c ∈ id.data, c.toNat = b ∧ b ≤ 127 := by
  obtain ⟨c, hc, hbc⟩ := utf8_mem _ b h
  rcases utf8Char_mem c b hbc with ⟨h127, rfl⟩ | h128
  · rcases Join_mem ";" ids c hc with hsep | ⟨id, hid, hcid⟩
    · left
      have : c = ';' := by simpa using hsep
      rw [this]
      rfl
    · right
      right
      exact ⟨id, hid, c, hcid, rfl, h127⟩
  · right
    left
    exact h128

theorem joined_no_query (ids : List String) (hq : ∀ id ∈ ids, '?' ∉ id.data) :
    63 ∉ toBytes (Join ids ";") := by
  intro h
  rcases joined_bytes ids 63 h with h1 | h1 | ⟨id, hid, c, hc, hcn, -⟩
  · exact absurd h1 (by decide)
  · exact absurd h1 (by decide)
  · have : c = '?' := by
      rw [← Char.ofNat_toNat c, hcn]
    exact hq id hid (this ▸ hc)

theorem joined_digits (ids : List String)
    (h : ∀ id ∈ ids, ∀ c ∈ id.data, c.isDigit = true) :
    ∀ b ∈ toBytes (Join ids ";"), isDigitByte b = true ∨ b = 59 := by
  intro b hb
  obtain ⟨c, hc, hbc⟩ := utf8_mem _ b hb
  rcases Join_mem ";" ids c hc with hsep | ⟨id, hid, hcid⟩
  · right
    have : c = ';' := by simpa using hsep
    subst this
    have : utf8Char ';' = [59] := by decide
    rw [this] at hbc
    simpa using hbc
  · left
    have hd := utf8Char_digit c (h id hid c hcid)
    rw [hd.1] at hbc
    simp only [List.mem_singleton] at hbc
    rw [hbc]
    exact hd.2

theorem specQuery_ne_nil (from_ to_ : Int) : specQuery from_ to_ ≠ [] := by
  have h : toBytes "site=stackoverflow" ≠ [] := by decide
  unfold specQuery
  intro hnil
  rcases List.append_eq_nil.1 hnil with ⟨h1, -⟩
  exact h (List.append_eq_nil.1 h1).2

/-- The constant part of the URL text: scheme, authority and first path segments. -/
theorem endpointBase_parts :
    toBytes endpointBase
      = toBytes "https" ++ toBytes "://" ++ toBytes "api.stackexchange.com"
        ++ toBytes "/2.2/questions/" := by
  decide

/-- The text of a URL that has a plain path, a query and no fragment. -/
theorem String_of_plain (path query : Bytes) (hp : escape EncodeMode.path path = path)
    (hhead : path.head? = some 47) (hq : query ≠ []) :
    URL.String
        { Scheme := toBytes "https"
          Host := toBytes "api.stackexchange.com"
          Path := path
          RawPath := []
          ForceQuery := false
          RawQuery := query
          Fragment := []
          RawFragment := [] }
      = toBytes "https://api.stackexchange.com" ++ path ++ 63 :: query := by
  have hstar : path ≠ [42] := by
    intro h
    rw [h] at hhead
    exact absurd hhead (by decide)
  have hne : path ≠ [] := by
    intro h
    rw [h] at hhead
    exact absurd hhead (by decide)
  have hconst : toBytes "https" ++ toBytes "://" ++ toBytes "api.stackexchange.com"
      = toBytes "https://api.stackexchange.com" := by decide
  simp only [URL.String, URL.EscapedPath, ne_eq, not_true_eq_false, false_and, if_false,
    hstar, hp, hhead, hq, not_false_eq_true, and_false, or_true, if_true, List.append_nil,
    hconst]

/-- The request of ids that consist of decimal digits. -/
theorem requestEndpoint_of_digits (ids : List String) (from_ to_ : Int)
    (h : ∀ id ∈ ids, ∀ c ∈ id.data, c.isDigit = true) :
    parseEndpoint (toBytes (Join ids ";"))
        = some
          { Scheme := toBytes "https"
            Host := toBytes "api.stackexchange.com"
            Path := toBytes ("/2.2/questions/" ++ Join ids ";")
            RawPath := []
            ForceQuery := false
            RawQuery := []
            Fragment := []
            RawFragment := [] }
      ∧ requestURL ids from_ to_
        = some (toBytes "https://api.stackexchange.com"
            ++ toBytes ("/2.2/questions/" ++ Join ids ";") ++ 63 :: specQuery from_ to_) := by
  have hbytes := joined_digits ids h
  have hplain : ∀ b ∈ toBytes (Join ids ";"), b ≠ 35 ∧ b ≠ 63 ∧ b ≠ 37 ∧ 32 ≤ b ∧ b ≠ 127 := by
    intro b hb
    rcases hbytes b hb with hd | rfl
    · have : 48 ≤ b ∧ b ≤ 57 := by simpa [isDigitByte] using hd
      omega
    · decide
  have hsafe : ∀ b ∈ toBytes "/2.2/questions/" ++ toBytes (Join ids ";"),
      shouldEscape b EncodeMode.path = false := by
    intro b hb
    have hbase : ∀ b ∈ toBytes "/2.2/questions/", shouldEscape b EncodeMode.path = false := by
      decide
    rcases List.mem_append.1 hb with hb | hb
    · exact hbase b hb
    · rcases hbytes b hb with hd | rfl
      · have h1 : 48 ≤ b ∧ b ≤ 57 := by simpa [isDigitByte] using hd
        have h2 : isAlnumByte b = true := by simp [isAlnumByte, h1.1, h1.2]
        simp [shouldEscape, h2]
      · decide
  have hesc := escape_of_unreserved EncodeMode.path _ hsafe
  have hparse := parseEndpoint_of_plain _ hplain
  rw [hesc, if_pos rfl, ← toBytes_append] at hparse
  refine ⟨hparse, ?_⟩
  have hhead : (toBytes ("/2.2/questions/" ++ Join ids ";")).head? = some 47 := by
    rw [toBytes_append]
    rfl
  simp only [requestURL, requestEndpoint, hparse, Option.map_some']
  rw [Query_of_empty _ rfl, setQueryParams_nil, Encode_specParams]
  rw [String_of_plain _ _ (by rw [toBytes_append]; exact hesc) hhead (specQuery_ne_nil _ _)]

/-! ## C5, C7: the request -/

/-- C5, as stated, fails: an id that carries query text adds its own parameters (`x=1` next
to `site=stackoverflow`; `fromdate=0` although `from` is 0), and with an id
that does not parse no query is built at all. -/
theorem C5_counterexample_query_in_ids :
    (requestEndpoint ["1?x=1"] 0 0).map URL.RawQuery
        = some (toBytes "site=stackoverflow&x=1")
      ∧ (requestEndpoint ["1?fromdate=0"] 0 0).map URL.RawQuery
        = some (toBytes "fromdate=0&site=stackoverflow")
      ∧ requestEndpoint ["%zz"] 0 0 = none := by
  decide

/-- C5, amended: for ids without `?`, whenever the URL parses (it does when the ids have no
`%` and no control character), the parameters set for all `from` and `to`
are `site=stackoverflow`, `fromdate=<decimal from>` exactly when `from > 0`,
`todate=<decimal to>` exactly when `to > 0`, and nothing else; whether
`fromdate` is there does not depend on `to`, nor `todate` on `from`. -/
theorem C5_query_parameters (ids : List String) (from_ to_ : Int)
    (hq : ∀ id ∈ ids, '?' ∉ id.data) :
    (∀ parsed, parseEndpoint (toBytes (Join ids ";")) = some parsed →
        setQueryParams parsed.Query from_ to_ = specParams from_ to_
        ∧ requestEndpoint ids from_ to_
            = some { parsed with RawQuery := specQuery from_ to_ }
        ∧ (toBytes "site", [toBytes "stackoverflow"]) ∈ setQueryParams parsed.Query from_ to_
        ∧ ((toBytes "fromdate", [toBytes (FormatInt from_)])
              ∈ setQueryParams parsed.Query from_ to_ ↔ from_ > 0)
        ∧ ((toBytes "todate", [toBytes (FormatInt to_)])
              ∈ setQueryParams parsed.Query from_ to_ ↔ to_ > 0)
        ∧ ((∃ vs, (toBytes "fromdate", vs) ∈ setQueryParams parsed.Query from_ to_)
              ↔ from_ > 0)
        ∧ ((∃ vs, (toBytes "todate", vs) ∈ setQueryParams parsed.Query from_ to_)
              ↔ to_ > 0)
        ∧ ∀ kv ∈ setQueryParams parsed.Query from_ to_,
            kv.1 = toBytes "site" ∨ kv.1 = toBytes "fromdate" ∨ kv.1 = toBytes "todate")
      ∧ ((∀ id ∈ ids, ∀ c ∈ id.data, c ≠ '%' ∧ 32 ≤ c.toNat ∧ c.toNat ≠ 127) →
          ∃ endpoint, requestEndpoint ids from_ to_ = some endpoint) := by
  have h63 := joined_no_query ids hq
  have hsite : toBytes "site" = [115, 105, 116, 101] := by decide
  have hfrom : toBytes "fromdate" = [102, 114, 111, 109, 100, 97, 116, 101] := by decide
  have hto : toBytes "todate" = [116, 111, 100, 97, 116, 101] := by decide
  constructor
  · intro parsed hparsed
    obtain ⟨hraw, -⟩ := parseEndpoint_no_query _ parsed h63 hparsed
    have hparams : setQueryParams parsed.Query from_ to_ = specParams from_ to_ := by
      rw [Query_of_empty parsed hraw, setQueryParams_nil]
    refine ⟨hparams, ?_, ?_⟩
    · simp only [requestEndpoint, hparsed, hparams, Encode_specParams]
    · rw [hparams]
      unfold specParams
      rw [hsite, hfrom, hto]
      by_cases hf : from_ > 0 <;> by_cases ht : to_ > 0 <;> simp [hf, ht]
  · intro hplain
    have hbytes : ∀ b ∈ toBytes (Join ids ";"), b ≠ 37 ∧ 32 ≤ b ∧ b ≠ 127 := by
      intro b hb
      rcases joined_bytes ids b hb with rfl | h128 | ⟨id, hid, c, hc, hcn, -⟩
      · decide
      · omega
      · obtain ⟨h1, h2, h3⟩ := hplain id hid c hc
        refine ⟨?_, hcn ▸ h2, hcn ▸ h3⟩
        intro h37
        apply h1
        rw [← Char.ofNat_toNat c, hcn, h37]
    obtain ⟨parsed, hparsed⟩ := parseEndpoint_isSome _ hbytes
    refine ⟨{ parsed with RawQuery := (setQueryParams parsed.Query from_ to_).Encode }, ?_⟩
    simp only [requestEndpoint, hparsed]

/-- C5, amended, at the ids `42`, `43` with a start date and no end date. -/
theorem C5_query_parameters_witness :
    (requestEndpoint ["42", "43"] 1577836800 0).map URL.RawQuery
      = some (toBytes "fromdate=1577836800&site=stackoverflow") := by
  have h := C5_query_parameters ["42", "43"] 1577836800 0 (by decide)
  obtain ⟨endpoint, hend⟩ := h.2 (by decide)
  obtain ⟨parsed, hparsed⟩ : ∃ parsed, parseEndpoint (toBytes (Join ["42", "43"] ";"))
      = some parsed := ⟨_, (requestEndpoint_of_digits ["42", "43"] 0 0 (by decide)).1⟩
  rw [(h.1 parsed hparsed).2.1]
  simp only [Option.map_some', Option.some.injEq]
  decide

/-- C7: for a non-empty list of ids that are non-empty strings of decimal digits, the URL
parses (so `endpoint` is not nil and `GetQuestions` does not panic), its
scheme is `https`, its host `api.stackexchange.com`, its path
`/2.2/questions/` followed by the ids joined with `;` in configuration
order, and the text passed to `http.Get` is that URL with the query.  (The
proof does not need the list or the ids to be non-empty.) -/
theorem C7_request_path (ids : List String) (_hne : ids ≠ [])
    (hdigits : ∀ id ∈ ids, id ≠ "" ∧ ∀ c ∈ id.data, c.isDigit = true) :
    ∃ endpoint, parseEndpoint (toBytes (Join ids ";")) = some endpoint
      ∧ endpoint.Scheme = toBytes "https"
      ∧ endpoint.Host = toBytes "api.stackexchange.com"
      ∧ endpoint.Path = toBytes ("/2.2/questions/" ++ Join ids ";")
      ∧ endpoint.EscapedPath = toBytes ("/2.2/questions/" ++ Join ids ";")
      ∧ ∀ (env : Env) (from_ to_ : Int),
          requestURL ids from_ to_
            = some (toBytes "https://api.stackexchange.com"
                ++ toBytes ("/2.2/questions/" ++ Join ids ";") ++ 63 :: specQuery from_ to_)
          ∧ (GetQuestions env ids from_ to_).result ≠ none
          ∧ (GetQuestions env ids from_ to_).events
              = [Event.httpGet (toBytes "https://api.stackexchange.com"
                  ++ toBytes ("/2.2/questions/" ++ Join ids ";")
                  ++ 63 :: specQuery from_ to_)] := by
  have hd : ∀ id ∈ ids, ∀ c ∈ id.data, c.isDigit = true := fun id hid => (hdigits id hid).2
  refine ⟨_, (requestEndpoint_of_digits ids 0 0 hd).1, rfl, rfl, rfl, ?_, ?_⟩
  · have hurl := (requestEndpoint_of_digits ids 0 0 hd).2
    have hsafe : ∀ b ∈ toBytes ("/2.2/questions/" ++ Join ids ";"),
        shouldEscape b EncodeMode.path = false := by
      intro b hb
      rw [toBytes_append] at hb
      have hbase : ∀ b ∈ toBytes "/2.2/questions/", shouldEscape b EncodeMode.path = false := by
        decide
      rcases List.mem_append.1 hb with hb | hb
      · exact hbase b hb
      · rcases joined_digits ids hd b hb with hdb | rfl
        · have h1 : 48 ≤ b ∧ b ≤ 57 := by simpa [isDigitByte] using hdb
          have h2 : isAlnumByte b = true := by simp [isAlnumByte, h1.1, h1.2]
          simp [shouldEscape, h2]
        · decide
    have hhead : (toBytes ("/2.2/questions/" ++ Join ids ";")).head? = some 47 := by
      rw [toBytes_append]
      rfl
    have hstar : toBytes ("/2.2/questions/" ++ Join ids ";") ≠ [42] := by
      intro h
      rw [h] at hhead
      exact absurd hhead (by decide)
    simp only [URL.EscapedPath, ne_eq, not_true_eq_false, false_and, if_false, hstar,
      escape_of_unreserved EncodeMode.path _ hsafe]
  · intro env from_ to_
    have hurl := (requestEndpoint_of_digits ids from_ to_ hd).2
    refine ⟨hurl, ?_, ?_⟩
    · intro hnone
      rw [GetQuestions_result_none, hurl] at hnone
      exact absurd hnone (by simp)
    · rw [GetQuestions_events, hurl]

/-- C7 at the ids `42`, `43`. -/
theorem C7_request_path_witness :
    requestURL ["42", "43"] 1577836800 0
      = some (toBytes
        "https://api.stackexchange.com/2.2/questions/42;43?fromdate=1577836800&site=stackoverflow")
    := by
  obtain ⟨endpoint, -, -, -, -, -, h⟩ := C7_request_path ["42", "43"] (by decide) (by decide)
  rw [(h sampleEnv 1577836800 0).1]
  decide

/-! ## C6: one call, no pagination -/

/-- A run ends in the nil-pointer panic exactly when the request URL does not parse. -/
theorem main_panic_nilDereference (env : Env) (input : String) :
    (main env input).panic = some PanicValue.nilDereference
      ↔ requestURL (LoadConfiguration env input).2.QuestionIds
          (parseUnix (LoadConfiguration env input).2.From)
          (parseUnix (LoadConfiguration env input).2.To) = none := by
  rw [← GetQuestions_result_none env]
  cases h : (GetQuestions env (LoadConfiguration env input).2.QuestionIds
      (parseUnix (LoadConfiguration env input).2.From)
      (parseUnix (LoadConfiguration env input).2.To)).result with
  | none => simp [main, h]
  | some p =>
    obtain ⟨questions, e⟩ := p
    cases e with
    | some err => simp [main, h]
    | none => simp [main, h]

/-- C6, as stated, fails: with the configured id `%zz` the run calls `GetQuestions`, the URL
does not parse, the run panics on the nil `endpoint` and no GET is issued. -/
theorem C6_counterexample_no_request :
    getQuestionsCalls (main badEscapeEnv "input.json").trace = 1
      ∧ httpCalls (main badEscapeEnv "input.json").trace = []
      ∧ (main badEscapeEnv "input.json").panic = some PanicValue.nilDereference := by
  decide

/-- C6, amended: every run calls `GetQuestions` once and issues at most one GET: exactly one
unless the URL fails to parse and the run panics on the nil `endpoint`
(ids of decimal digits always parse); when the call returns a nil error the
records written are the header and the items of that one response, and a
response with `has_more` true yields the same records as the same response
with `has_more` false. -/
theorem C6_single_request (env : Env) (input : String) :
    getQuestionsCalls (main env input).trace = 1
      ∧ (httpCalls (main env input).trace).length ≤ 1
      ∧ ((httpCalls (main env input).trace).length = 1
          ↔ (main env input).panic ≠ some PanicValue.nilDereference)
      ∧ ((∀ id ∈ (LoadConfiguration env input).2.QuestionIds, ∀ c ∈ id.data, c.isDigit = true) →
          (httpCalls (main env input).trace).length = 1)
      ∧ (∀ questions,
          (callOf env (LoadConfiguration env input).2).result = some (questions, none) →
          csvRecords (main env input).trace
            = csvHeader :: questions.Items.map (csvRecord env))
      ∧ (∀ (env2 : Env) (input2 : String) (questions : QuestionsResponse),
          env2.zone = env.zone →
          (callOf env (LoadConfiguration env input).2).result
            = some ({ questions with HasMore := true }, none) →
          (callOf env2 (LoadConfiguration env2 input2).2).result
            = some ({ questions with HasMore := false }, none) →
          csvRecords (main env input).trace = csvRecords (main env2 input2).trace) := by
  have hcalls := main_httpCalls env input
  have hpanic := main_panic_nilDereference env input
  refine ⟨main_getQuestionsCalls env input, ?_, ?_, ?_, ?_, ?_⟩
  · rw [hcalls]
    split <;> simp
  · rw [hcalls, ne_eq, hpanic]
    split <;> simp [*]
  · intro hd
    rw [hcalls, (requestEndpoint_of_digits _ _ _ hd).2]
    rfl
  · intro questions h
    exact (main_of_success env input questions h).2
  · intro env2 input2 questions hzone h1 h2
    rw [(main_of_success env input _ h1).2, (main_of_success env2 input2 _ h2).2]
    have : csvRecord env = csvRecord env2 := by
      funext item
      simp [csvRecord, hzone]
    rw [this]

/-! ## C9: bodies without error or item keys -/

theorem equalFold_self (name : String) : equalFold name name = true := by
  simp [equalFold]

theorem ne_of_equalFold_false (name key : String) (h : equalFold name key = false) :
    (name == key) = false := by
  rw [beq_eq_false_iff_ne]
  intro heq
  rw [heq, equalFold_self] at h
  exact absurd h (by decide)

/-- A key that matches no field name, not even case-insensitively, selects no field of
`ErrorResponse`. -/
theorem findField_errorFields_none (key : String)
    (h : ∀ name ∈ ["error_id", "error_message", "error_name"], equalFold name key = false) :
    findField errorFields key = none := by
  have h1 := h "error_id" (by simp)
  have h2 := h "error_message" (by simp)
  have h3 := h "error_name" (by simp)
  simp [findField, errorFields, List.find?, h1, h2, h3, ne_of_equalFold_false _ _ h1,
    ne_of_equalFold_false _ _ h2, ne_of_equalFold_false _ _ h3]

/-- A key that does not match `items`, not even case-insensitively, does not select the field
`Items`. -/
theorem findField_questionsFields_ne_items (key : String) (h : equalFold "items" key = false) :
    findField questionsFields key ≠ some QuestionsField.items := by
  have h0 := ne_of_equalFold_false _ _ h
  unfold findField questionsFields
  simp only [List.find?, h0, h]
  by_cases c1 : ("has_more" == key) = true
  · simp [c1]
  · by_cases c2 : ("quota_max" == key) = true
    · simp [c1, c2]
    · by_cases c3 : ("quota_remaining" == key) = true
      · simp [c1, c2, c3]
      · simp only [c1, c2, c3]
        by_cases d1 : equalFold "has_more" key = true
        · simp [d1]
        · by_cases d2 : equalFold "quota_max" key = true
          · simp [d1, d2]
          · by_cases d3 : equalFold "quota_remaining" key = true
            · simp [d1, d2, d3]
            · simp [d1, d2, d3]

theorem unmarshalErrorResponse_members (members : List (String × JValue))
    (h : ∀ kv ∈ members, findField errorFields kv.1 = none) (r : ErrorResponse) :
    members.foldl ErrorResponse.setMember r = r := by
  induction members generalizing r with
  | nil => rfl
  | cons kv rest ih =>
    have hkv := h kv (List.mem_cons_self _ _)
    have hstep : ErrorResponse.setMember r kv = r := by
      simp only [ErrorResponse.setMember, hkv]
    rw [List.foldl_cons, hstep]
    exact ih (fun x hx => h x (List.mem_cons_of_mem _ hx)) r

theorem unmarshalQuestions_members (env : Env) (members : List (String × JValue))
    (h : ∀ kv ∈ members, findField questionsFields kv.1 ≠ some QuestionsField.items)
    (r : QuestionsResponse) :
    (members.foldl (QuestionsResponse.setMember env) r).Items = r.Items := by
  induction members generalizing r with
  | nil => rfl
  | cons kv rest ih =>
    have hkv := h kv (List.mem_cons_self _ _)
    have hstep : (QuestionsResponse.setMember env r kv).Items = r.Items := by
      unfold QuestionsResponse.setMember
      cases hf : findField questionsFields kv.1 with
      | none => rfl
      | some f =>
        cases f with
        | items => exact absurd hf hkv
        | hasMore => rfl
        | quotaMax => rfl
        | quotaRemaining => rfl
    rw [List.foldl_cons, ih (fun x hx => h x (List.mem_cons_of_mem _ hx)), hstep]

/-- C9, as stated, fails: the object of `upperCaseKeyEnv` has the single key `ERROR_ID`, which
is none of `error_id`, `error_message`, `error_name`, `items`, yet
`json.Unmarshal` matches it to the field `ErrorId`, `GetQuestions` returns
the error `": "` and `main` panics before the header is written. -/
theorem C9_counterexample_upper_case_key :
    upperCaseKeyEnv.jsonParse [] = some (JValue.object [("ERROR_ID", JValue.number "400")])
      ∧ "ERROR_ID" ∉ ["error_id", "error_message", "error_name", "items"]
      ∧ (GetQuestions upperCaseKeyEnv ["42"] 0 0).result
          = some (QuestionsResponse.zero, some (GoError.new ": "))
      ∧ (main upperCaseKeyEnv "input.json").panic
          = some (PanicValue.error (GoError.new ": "))
      ∧ csvRecords (main upperCaseKeyEnv "input.json").trace = [] :=
  ⟨rfl, by decide, by decide, by decide, by decide⟩

/-- C9, amended: for a body that was read, whatever the status code, that is not valid JSON
or is an object none of whose keys matches `error_id`, `error_message`,
`error_name` or `items` exactly or case-insensitively, `GetQuestions` returns
a nil error and a response without items, and a run of `main` that makes this
call writes the header record only. -/
theorem C9_body_without_keys (env : Env) (ids : List String) (from_ to_ : Int) (url : Bytes)
    (status : Nat) (data : Bytes)
    (hurl : requestURL ids from_ to_ = some url)
    (hget : env.httpGet url = HttpResult.response status (Except.ok data))
    (hbody : env.jsonParse data = none
      ∨ ∃ members, env.jsonParse data = some (JValue.object members)
          ∧ ∀ kv ∈ members, ∀ name ∈ ["error_id", "error_message", "error_name", "items"],
              equalFold name kv.1 = false) :
    (∃ questions, (GetQuestions env ids from_ to_).result = some (questions, none)
        ∧ questions.Items = [])
      ∧ ∀ input : String,
          (LoadConfiguration env input).2.QuestionIds = ids →
          parseUnix (LoadConfiguration env input).2.From = from_ →
          parseUnix (LoadConfiguration env input).2.To = to_ →
          (main env input).panic = none ∧ csvRecords (main env input).trace = [csvHeader] := by
  have hres : ∃ questions, (GetQuestions env ids from_ to_).result = some (questions, none)
      ∧ questions.Items = [] := by
    rw [GetQuestions_of_body env ids from_ to_ url status data hurl hget]
    rcases hbody with hnone | ⟨members, hsome, hkeys⟩
    · refine ⟨QuestionsResponse.zero, ?_, rfl⟩
      simp [decodeBody, hnone, unmarshalErrorResponse, unmarshalQuestions]
    · have herr : members.foldl ErrorResponse.setMember ErrorResponse.zero
          = ErrorResponse.zero := by
        apply unmarshalErrorResponse_members
        intro kv hkv
        apply findField_errorFields_none
        intro name hname
        apply hkeys kv hkv name
        simp only [List.mem_cons, List.mem_singleton, List.not_mem_nil, or_false] at hname ⊢
        tauto
      have hitems : (members.foldl (QuestionsResponse.setMember env) QuestionsResponse.zero).Items
          = [] := by
        rw [unmarshalQuestions_members]
        · rfl
        · intro kv hkv
          exact findField_questionsFields_ne_items _ (hkeys kv hkv "items" (by simp))
      refine ⟨members.foldl (QuestionsResponse.setMember env) QuestionsResponse.zero, ?_,
        hitems⟩
      simp [decodeBody, hsome, unmarshalErrorResponse, unmarshalQuestions, herr]
  refine ⟨hres, ?_⟩
  intro input hids hfrom hto
  obtain ⟨questions, hq, hitems⟩ := hres
  have hcall : (callOf env (LoadConfiguration env input).2).result = some (questions, none) := by
    rw [callOf, hids, hfrom, hto]
    exact hq
  have h := main_of_success env input questions hcall
  rw [hitems] at h
  exact ⟨h.1, by simpa using h.2⟩

/-- C9, amended, at `notJsonEnv`: status 503 and a body that is not JSON give a nil error and
a CSV of the header only. -/
theorem C9_body_without_keys_witness :
    (main notJsonEnv "input.json").panic = none
      ∧ csvRecords (main notJsonEnv "input.json").trace = [csvHeader] :=
  (C9_body_without_keys notJsonEnv ["42", "43"] 1577836800 (-62135596800)
    (toBytes
      "https://api.stackexchange.com/2.2/questions/42;43?fromdate=1577836800&site=stackoverflow")
    503 [60, 104, 116, 109, 108, 62] (by decide) rfl (Or.inl rfl)).2 "input.json"
    (by decide) (by decide) (by decide)

/-! ## Lemmas on the calendar -/

/-- Sample values of the date arguments: a date after the epoch, the epoch itself, a day
that does not exist, a malformed date and the empty string. -/
theorem parseUnix_examples :
    parseUnix "2020-01-01" = 1577836800 ∧ parseUnix "1970-01-01" = 0
      ∧ parseUnix "1969-12-31" = -86400 ∧ parseUnix "2021-02-29" = -62135596800
      ∧ parseUnix "2020-1-1" = -62135596800 ∧ parseUnix "" = -62135596800 := by
  decide

end SOMetrics
